import Mathlib

/-!
Verification of the flavorpack PSPF/2025 core (flavor-rs) against its
natural-language specification.

The Rust sources under `src/flavor-rs/src/psp` are shallowly embedded here:

* byte buffers are `List Nat`, with the invariant that entries are `< 256`
  carried as a hypothesis where it matters;
* machine integers are `Nat`, with explicit `% 2 ^ 64` at the one place where
  u64 wrap-around is reachable (`Reader::read_magic_trailer`);
* stateful code (file reads, the builder's output file) is explicit state
  passing: `read_at` over a byte list, and a (buffer, position) pair for the
  builder's output file;
* fallible code returns `Except Err`;
* external library primitives that the repository only calls (gzip, Ed25519,
  serde-JSON, chrono parsing/formatting, UTF-8 encoding of Rust strings) are
  function-valued parameters ("oracles").  As Lean functions they are pure and
  deterministic, which models the fact that those libraries compute functions
  of their inputs.  Adler-32 and SHA-256 are implemented for real.
-/

set_option maxRecDepth 4000

namespace Flavor

/-! ## Byte-level primitives -/

/-- Byte buffers: each entry is intended to lie in `[0, 256)`. -/
abbrev Bytes := List Nat

/-- All entries of the buffer are genuine bytes. -/
def IsBytes (l : Bytes) : Prop := ∀ x ∈ l, x < 256

/-- Little-endian value of a byte list (`u32::from_le_bytes` and friends). -/
def fromLE : Bytes → Nat
  | [] => 0
  | b :: rest => b + 256 * fromLE rest

/-- `k`-byte little-endian encoding of `n` (`to_le_bytes`). -/
def toLE : Nat → Nat → Bytes
  | 0, _ => []
  | k + 1, n => n % 256 :: toLE k (n / 256)

/-- The contiguous byte range `[off, off+len)` of a buffer. -/
def slice (l : Bytes) (off len : Nat) : Bytes := (l.drop off).take len

/-- Read a `k`-byte little-endian integer at offset `off`. -/
def readLE (l : Bytes) (off k : Nat) : Nat := fromLE (slice l off k)

/-- Overwrite the range starting at `off` with `v` (`copy_from_slice`). -/
def setRange (l : Bytes) (off : Nat) (v : Bytes) : Bytes :=
  l.take off ++ v ++ l.drop (off + v.length)

/-- Random-access read of `len` bytes at `off`; `none` models an I/O error
(seek/`read_exact` past end of file), as produced by every backend. -/
def readAt (file : Bytes) (off len : Nat) : Option Bytes :=
  if off + len ≤ file.length then some (slice file off len) else none

@[simp] theorem length_toLE (k n : Nat) : (toLE k n).length = k := by
  induction k generalizing n with
  | zero => rfl
  | succ k ih => simp [toLE, ih]

theorem toLE_fromLE (s : Bytes) (hb : ∀ x ∈ s, x < 256) :
    toLE s.length (fromLE s) = s := by
  induction s with
  | nil => rfl
  | cons b rest ih =>
    have hblt : b < 256 := hb b (List.mem_cons_self _ _)
    have hrest : ∀ x ∈ rest, x < 256 := fun x hx => hb x (List.mem_cons_of_mem _ hx)
    simp only [List.length_cons, toLE, fromLE]
    have h1 : (b + 256 * fromLE rest) % 256 = b := by omega
    have h2 : (b + 256 * fromLE rest) / 256 = fromLE rest := by omega
    rw [h1, h2, ih hrest]

theorem fromLE_lt (s : Bytes) (hb : ∀ x ∈ s, x < 256) :
    fromLE s < 256 ^ s.length := by
  induction s with
  | nil => simp [fromLE]
  | cons b rest ih =>
    have hblt : b < 256 := hb b (List.mem_cons_self _ _)
    have hrest : ∀ x ∈ rest, x < 256 := fun x hx => hb x (List.mem_cons_of_mem _ hx)
    have := ih hrest
    simp only [fromLE, List.length_cons, pow_succ]
    calc b + 256 * fromLE rest < 256 + 256 * fromLE rest := by omega
      _ ≤ 256 * (fromLE rest + 1) := by ring_nf; omega
      _ ≤ 256 * 256 ^ rest.length := by
          have : fromLE rest + 1 ≤ 256 ^ rest.length := this
          exact Nat.mul_le_mul_left _ this
      _ = 256 ^ rest.length * 256 := by ring

theorem fromLE_toLE (k n : Nat) (h : n < 256 ^ k) : fromLE (toLE k n) = n := by
  induction k generalizing n with
  | zero => simp [toLE, fromLE]; omega
  | succ k ih =>
    simp only [toLE, fromLE]
    rw [ih (n / 256) (by
      have : 256 ^ (k + 1) = 256 * 256 ^ k := by ring
      omega)]
    omega

theorem toLE_mem_lt (k n : Nat) : ∀ x ∈ toLE k n, x < 256 := by
  induction k generalizing n with
  | zero => intro x hx; simp [toLE] at hx
  | succ k ih =>
    intro x hx
    simp only [toLE, List.mem_cons] at hx
    rcases hx with h | h
    · omega
    · exact ih (n / 256) x h

/-! ## Adler-32 (the `adler` crate: `adler32_slice` / `Adler32::write_slice`) -/

/-- One Adler-32 step: state `(a, b)`, both reduced modulo 65521. -/
def adlerStep (st : Nat × Nat) (byte : Nat) : Nat × Nat :=
  ((st.1 + byte) % 65521, (st.2 + (st.1 + byte) % 65521) % 65521)

/-- Adler-32 of a byte buffer, starting from `a = 1`, `b = 0`; the result is
`b <<< 16 ||| a` exactly as `Adler32::checksum` computes it. -/
def adler32 (data : Bytes) : Nat :=
  let st := data.foldl adlerStep (1, 0)
  st.2 <<< 16 ||| st.1

/-! ## SHA-256 (complete implementation, FIPS 180-4) -/

/-- Truncate to a 32-bit word. -/
def w32 (n : Nat) : Nat := n % 4294967296

/-- Right rotation of a 32-bit word. -/
def rotr (k x : Nat) : Nat := w32 ((x >>> k) ||| (x <<< (32 - k)))

/-- Bitwise complement of a 32-bit word. -/
def wnot (x : Nat) : Nat := 4294967295 - x % 4294967296

/-- The 64 SHA-256 round constants. -/
def shaK : List Nat :=
  [1116352408, 1899447441, 3049323471, 3921009573, 961987163, 1508970993,
   2453635748, 2870763221, 3624381080, 310598401, 607225278, 1426881987,
   1925078388, 2162078206, 2614888103, 3248222580, 3835390401, 4022224774,
   264347078, 604807628, 770255983, 1249150122, 1555081692, 1996064986,
   2554220882, 2821834349, 2952996808, 3210313671, 3336571891, 3584528711,
   113926993, 338241895, 666307205, 773529912, 1294757372, 1396182291,
   1695183700, 1986661051, 2177026350, 2456956037, 2730485921, 2820302411,
   3259730800, 3345764771, 3516065817, 3600352804, 4094571909, 275423344,
   430227734, 506948616, 659060556, 883997877, 958139571, 1322822218,
   1537002063, 1747873779, 1955562222, 2024104815, 2227730452, 2361852424,
   2428436474, 2756734187, 3204031479, 3329325298]

/-- SHA-256 initial hash value. -/
def shaH0 : List Nat :=
  [1779033703, 3144134277, 1013904242, 2773480762,
   1359893119, 2600822924, 528734635, 1541459225]

/-- Big-endian bytes of a `k`-byte integer. -/
def toBE : Nat → Nat → Bytes
  | 0, _ => []
  | k + 1, n => n / 256 ^ k % 256 :: toBE k n

/-- Group a byte list into big-endian 32-bit words (4 bytes each). -/
def bytesToWords : Bytes → List Nat
  | b0 :: b1 :: b2 :: b3 :: rest =>
      (((b0 * 256 + b1) * 256 + b2) * 256 + b3) :: bytesToWords rest
  | _ => []

/-- SHA-256 padding: append `0x80`, zeros, and the 64-bit bit length. -/
def shaPad (msg : Bytes) : Bytes :=
  msg ++ 0x80 :: List.replicate ((119 - msg.length % 64) % 64) 0
      ++ toBE 8 (8 * msg.length)

/-- Extend a 16-word block to the full 64-word message schedule. -/
def shaExtend : Nat → List Nat → List Nat
  | 0, ws => ws
  | fuel + 1, ws =>
    let i := ws.length
    let w15 := ws.getD (i - 15) 0
    let w2 := ws.getD (i - 2) 0
    let w16 := ws.getD (i - 16) 0
    let w7 := ws.getD (i - 7) 0
    let s0 := (rotr 7 w15) ^^^ (rotr 18 w15) ^^^ (w15 >>> 3)
    let s1 := (rotr 17 w2) ^^^ (rotr 19 w2) ^^^ (w2 >>> 10)
    shaExtend fuel (ws ++ [w32 (w16 + s0 + w7 + s1)])

/-- One SHA-256 compression round. -/
def shaRound (st : List Nat) (kw : Nat × Nat) : List Nat :=
  match st with
  | [a, b, c, d, e, f, g, h] =>
    let s1 := (rotr 6 e) ^^^ (rotr 11 e) ^^^ (rotr 25 e)
    let ch := (e &&& f) ^^^ ((wnot e) &&& g)
    let temp1 := w32 (h + s1 + ch + kw.1 + kw.2)
    let s0 := (rotr 2 a) ^^^ (rotr 13 a) ^^^ (rotr 22 a)
    let maj := (a &&& b) ^^^ (a &&& c) ^^^ (b &&& c)
    let temp2 := w32 (s0 + maj)
    [w32 (temp1 + temp2), a, b, c, w32 (d + temp1), e, f, g]
  | other => other

/-- Compress one 64-byte chunk into the running hash state. -/
def shaChunk (hstate : List Nat) (chunk : Bytes) : List Nat :=
  let ws := shaExtend 48 (bytesToWords chunk)
  let st := (List.zip shaK ws).foldl shaRound hstate
  (List.zip hstate st).map fun p => w32 (p.1 + p.2)

/-- Split a padded message into 64-byte chunks. -/
def chunks64 : Nat → Bytes → List Bytes
  | 0, _ => []
  | _, [] => []
  | fuel + 1, l => l.take 64 :: chunks64 fuel (l.drop 64)

/-- SHA-256 digest (32 bytes) of a byte buffer. -/
def sha256 (msg : Bytes) : Bytes :=
  let padded := shaPad msg
  let final := (chunks64 (padded.length / 64) padded).foldl shaChunk shaH0
  final.foldr (fun wo acc => toBE 4 wo ++ acc) []

/-! ## Hex formatting -/

/-- Lowercase hex digit for a value in `[0, 16)`. -/
def hexChar (n : Nat) : Char :=
  if n < 10 then Char.ofNat (48 + n) else Char.ofNat (87 + n)

/-- Rust `format!("{:08x}", n)` restricted to `u32` inputs: exactly eight
lowercase hex digits, most significant first. -/
def toHex8 (n : Nat) : String :=
  String.mk ((List.range 8).map fun i => hexChar (n / 16 ^ (7 - i) % 16))

/-- Lowercase hex encoding of a byte buffer (`hex::encode` and `{:x}` on a
digest). -/
def hexEncode (b : Bytes) : String :=
  String.mk (b.foldr (fun x acc => hexChar (x / 16 % 16) :: hexChar (x % 16) :: acc) [])

/-- Rust `str::trim`: drop leading and trailing Unicode whitespace (modeled
structurally over the character list so that it evaluates). -/
def rustTrim (s : String) : String :=
  String.mk (((s.data.dropWhile Char.isWhitespace).reverse.dropWhile
    Char.isWhitespace).reverse)

/-! ## Errors

`flavor-rs` reports almost every failure as `FlavorError::Generic(msg)` or
`FlavorError::Io`.  Each distinct failure site gets its own constructor here;
the comment on a constructor quotes the Rust message it stands for. -/

inductive Err where
  /-- An underlying I/O failure (`FlavorError::Io`, from `?` on file ops). -/
  | ioError : Err
  /-- "Invalid index size: {n} != 8192" -/
  | invalidIndexSize : Nat → Err
  /-- "Invalid MagicTrailer: missing package emoji at start" -/
  | invalidMagicStart : Err
  /-- "Invalid MagicTrailer: missing wand emoji at end" -/
  | invalidMagicEnd : Err
  /-- "Metadata checksum mismatch" -/
  | checksumMismatch : Err
  /-- UTF-8 / gzip decoding failure while reading metadata. -/
  | gunzipError : Err
  /-- `serde_json::from_str` failure on the metadata JSON. -/
  | jsonParseError : Err
  /-- "Invalid public key: ..." (Ed25519 point decoding failed). -/
  | invalidPublicKey : Err
  /-- "Slot index {i} out of range" -/
  | slotOutOfRange : Nat → Err
  /-- "Failed to decompress GZIP: ..." -/
  | gzipDecompress : Err
  /-- "Unknown operation {op} for slot {i}" -/
  | unknownOperation : Nat → Err
  /-- "Operation mismatch: slot {i} has TAR operation but is not a tar archive" -/
  | operationMismatch : Err
  /-- "package checksum mismatch: cached={c}, current={cur}" (strict tier). -/
  | packageChecksumMismatch : String → String → Err
  /-- "Launcher binary path must be specified ..." -/
  | launcherMissing : Err
  /-- slot number mismatch in the manifest (`process::exit(1)` in the source). -/
  | slotNumberMismatch : Err
  /-- "Failed to open slot ..." -/
  | missingSlotFile : Err
  /-- key loading failure (`load_keys_from_files`). -/
  | keyLoad : Err
  /-- "Data is not a Windows PE executable" / invalid PE structure. -/
  | peInvalid : Err
  /-- a Rust slice-indexing panic (out-of-bounds write in `pe_utils`). -/
  | peOutOfBounds : Err
  /-- "Failed to update PE offset: expected ..., got ..." -/
  | peVerifyFailed : Err
deriving DecidableEq, Repr

deriving instance DecidableEq for Except

/-! ## Index (`format_2025/index.rs`)

The 8192-byte index block.  Multi-byte integers are little-endian; byte-array
fields are kept as byte lists.  Layout offsets match `Index::unpack`. -/

structure Index where
  format_version : Nat
  index_checksum : Nat
  package_size : Nat
  launcher_size : Nat
  metadata_offset : Nat
  metadata_size : Nat
  slot_table_offset : Nat
  slot_table_size : Nat
  slot_count : Nat
  flags : Nat
  public_key : Bytes
  metadata_checksum : Bytes
  integrity_signature : Bytes
  access_mode : Nat
  cache_strategy : Nat
  encryption_type : Nat
  reserved_hint : Nat
  page_size : Nat
  max_memory : Nat
  min_memory : Nat
  cpu_features : Nat
  gpu_requirements : Nat
  numa_hints : Nat
  stream_chunk_size : Nat
  padding1 : Bytes
  build_timestamp : Nat
  build_machine : Bytes
  source_hash : Bytes
  dependency_hash : Bytes
  license_id : Bytes
  provenance_uri : Bytes
  capabilities : Nat
  requirements : Nat
  extensions : Nat
  compatibility : Nat
  protocol_version : Nat
  future_crypto : Bytes
  reserved : Bytes
deriving DecidableEq, Repr

/-- `PSPF_VERSION` / `FORMAT_VERSION` (constants.rs). -/
def FORMAT_VERSION : Nat := 0x20250001

/-- `Index::new()`: the all-defaults index. -/
def Index.new : Index where
  format_version := FORMAT_VERSION
  index_checksum := 0
  package_size := 0
  launcher_size := 0
  metadata_offset := 0
  metadata_size := 0
  slot_table_offset := 0
  slot_table_size := 0
  slot_count := 0
  flags := 0
  public_key := List.replicate 32 0
  metadata_checksum := List.replicate 32 0
  integrity_signature := List.replicate 512 0
  access_mode := 0
  cache_strategy := 0
  encryption_type := 0
  reserved_hint := 0
  page_size := 4096
  max_memory := 0
  min_memory := 0
  cpu_features := 0
  gpu_requirements := 0
  numa_hints := 0
  stream_chunk_size := 0
  padding1 := List.replicate 12 0
  build_timestamp := 0
  build_machine := List.replicate 32 0
  source_hash := List.replicate 32 0
  dependency_hash := List.replicate 32 0
  license_id := List.replicate 16 0
  provenance_uri := List.replicate 8 0
  capabilities := 0
  requirements := 0
  extensions := 0
  compatibility := FORMAT_VERSION
  protocol_version := 1
  future_crypto := List.replicate 512 0
  reserved := List.replicate 6816 0

/-- Field extraction of `Index::unpack` (every field read at its fixed
little-endian offset); applied only after the length guard. -/
def Index.parse (data : Bytes) : Index where
  format_version := readLE data 0 4
  index_checksum := readLE data 4 4
  package_size := readLE data 8 8
  launcher_size := readLE data 16 8
  metadata_offset := readLE data 24 8
  metadata_size := readLE data 32 8
  slot_table_offset := readLE data 40 8
  slot_table_size := readLE data 48 8
  slot_count := readLE data 56 4
  flags := readLE data 60 4
  public_key := slice data 64 32
  metadata_checksum := slice data 96 32
  integrity_signature := slice data 128 512
  access_mode := readLE data 640 1
  cache_strategy := readLE data 641 1
  encryption_type := readLE data 642 1
  reserved_hint := readLE data 643 1
  page_size := readLE data 644 4
  max_memory := readLE data 648 8
  min_memory := readLE data 656 8
  cpu_features := readLE data 664 8
  gpu_requirements := readLE data 672 8
  numa_hints := readLE data 680 8
  stream_chunk_size := readLE data 688 4
  padding1 := slice data 692 12
  build_timestamp := readLE data 704 8
  build_machine := slice data 712 32
  source_hash := slice data 744 32
  dependency_hash := slice data 776 32
  license_id := slice data 808 16
  provenance_uri := slice data 824 8
  capabilities := readLE data 832 8
  requirements := readLE data 840 8
  extensions := readLE data 848 8
  compatibility := readLE data 856 4
  protocol_version := readLE data 860 4
  future_crypto := slice data 864 512
  reserved := slice data 1376 6816

/-- `Index::unpack`: fails exactly when the input is not 8192 bytes, then
parses every field at its fixed offset.  No field value is validated. -/
def Index.unpack (data : Bytes) : Except Err Index :=
  if data.length = 8192 then .ok (Index.parse data)
  else .error (.invalidIndexSize data.length)

/-- The field-serialisation part of `Index::pack`: all fields written at
their fixed offsets, before the checksum back-fill. -/
def Index.packRaw (i : Index) : Bytes :=
  toLE 4 i.format_version ++ toLE 4 i.index_checksum ++ toLE 8 i.package_size ++
  toLE 8 i.launcher_size ++ toLE 8 i.metadata_offset ++ toLE 8 i.metadata_size ++
  toLE 8 i.slot_table_offset ++ toLE 8 i.slot_table_size ++ toLE 4 i.slot_count ++
  toLE 4 i.flags ++ i.public_key ++ i.metadata_checksum ++ i.integrity_signature ++
  toLE 1 i.access_mode ++ toLE 1 i.cache_strategy ++ toLE 1 i.encryption_type ++
  toLE 1 i.reserved_hint ++ toLE 4 i.page_size ++ toLE 8 i.max_memory ++
  toLE 8 i.min_memory ++ toLE 8 i.cpu_features ++ toLE 8 i.gpu_requirements ++
  toLE 8 i.numa_hints ++ toLE 4 i.stream_chunk_size ++ i.padding1 ++
  toLE 8 i.build_timestamp ++ i.build_machine ++ i.source_hash ++
  i.dependency_hash ++ i.license_id ++ i.provenance_uri ++ toLE 8 i.capabilities ++
  toLE 8 i.requirements ++ toLE 8 i.extensions ++ toLE 4 i.compatibility ++
  toLE 4 i.protocol_version ++ i.future_crypto ++ i.reserved

/-- Zero bytes `[4, 8)` of a buffer (the `index_checksum` field). -/
def zeroChecksumField (b : Bytes) : Bytes := setRange b 4 [0, 0, 0, 0]

/-- `Index::pack`: serialise all fields, then recompute Adler-32 over the
buffer with bytes `[4, 8)` zeroed and back-fill it into bytes `[4, 8)`. -/
def Index.pack (i : Index) : Bytes :=
  let z := zeroChecksumField i.packRaw
  setRange z 4 (toLE 4 (adler32 z))

/-! ### Round-trip: re-packing a parsed index reproduces the block -/

theorem length_slice (l : Bytes) (off k : Nat) (h : off + k ≤ l.length) :
    (slice l off k).length = k := by
  simp only [slice, List.length_take, List.length_drop]
  omega

theorem mem_slice_lt (l : Bytes) (off k : Nat) (hb : IsBytes l) :
    ∀ x ∈ slice l off k, x < 256 := by
  intro x hx
  exact hb x (List.mem_of_mem_drop (List.mem_of_mem_take hx))

theorem toLE_readLE (l : Bytes) (off k : Nat) (h : off + k ≤ l.length)
    (hb : IsBytes l) : toLE k (readLE l off k) = slice l off k := by
  have hlen : (slice l off k).length = k := length_slice l off k h
  have hfull := toLE_fromLE (slice l off k) (mem_slice_lt l off k hb)
  rw [hlen] at hfull
  exact hfull

theorem seg_step (l : Bytes) (o k p : Nat) (h : p = o + k) :
    slice l o k ++ l.drop p = l.drop o := by
  subst h
  have : l.drop (o + k) = (l.drop o).drop k := by
    rw [List.drop_drop, Nat.add_comm]
  rw [slice, this, List.take_append_drop]

theorem slice_last (l : Bytes) (off k : Nat) (h : l.length ≤ off + k) :
    slice l off k = l.drop off := by
  apply List.take_of_length_le
  simp only [List.length_drop]
  omega

theorem packRaw_parse (b : Bytes) (hlen : b.length = 8192) (hb : IsBytes b) :
    Index.packRaw (Index.parse b) = b := by
  simp only [Index.packRaw, Index.parse]
  rw [toLE_readLE b 0 4 (by omega) hb, toLE_readLE b 4 4 (by omega) hb,
    toLE_readLE b 8 8 (by omega) hb, toLE_readLE b 16 8 (by omega) hb,
    toLE_readLE b 24 8 (by omega) hb, toLE_readLE b 32 8 (by omega) hb,
    toLE_readLE b 40 8 (by omega) hb, toLE_readLE b 48 8 (by omega) hb,
    toLE_readLE b 56 4 (by omega) hb, toLE_readLE b 60 4 (by omega) hb,
    toLE_readLE b 640 1 (by omega) hb, toLE_readLE b 641 1 (by omega) hb,
    toLE_readLE b 642 1 (by omega) hb, toLE_readLE b 643 1 (by omega) hb,
    toLE_readLE b 644 4 (by omega) hb, toLE_readLE b 648 8 (by omega) hb,
    toLE_readLE b 656 8 (by omega) hb, toLE_readLE b 664 8 (by omega) hb,
    toLE_readLE b 672 8 (by omega) hb, toLE_readLE b 680 8 (by omega) hb,
    toLE_readLE b 688 4 (by omega) hb, toLE_readLE b 704 8 (by omega) hb,
    toLE_readLE b 832 8 (by omega) hb, toLE_readLE b 840 8 (by omega) hb,
    toLE_readLE b 848 8 (by omega) hb, toLE_readLE b 856 4 (by omega) hb,
    toLE_readLE b 860 4 (by omega) hb]
  rw [slice_last b 1376 6816 (by omega)]
  simp only [List.append_assoc]
  rw [seg_step b 864 512 1376 (by norm_num), seg_step b 860 4 864 (by norm_num),
    seg_step b 856 4 860 (by norm_num), seg_step b 848 8 856 (by norm_num),
    seg_step b 840 8 848 (by norm_num), seg_step b 832 8 840 (by norm_num),
    seg_step b 824 8 832 (by norm_num), seg_step b 808 16 824 (by norm_num),
    seg_step b 776 32 808 (by norm_num), seg_step b 744 32 776 (by norm_num),
    seg_step b 712 32 744 (by norm_num), seg_step b 704 8 712 (by norm_num),
    seg_step b 692 12 704 (by norm_num), seg_step b 688 4 692 (by norm_num),
    seg_step b 680 8 688 (by norm_num), seg_step b 672 8 680 (by norm_num),
    seg_step b 664 8 672 (by norm_num), seg_step b 656 8 664 (by norm_num),
    seg_step b 648 8 656 (by norm_num), seg_step b 644 4 648 (by norm_num),
    seg_step b 643 1 644 (by norm_num), seg_step b 642 1 643 (by norm_num),
    seg_step b 641 1 642 (by norm_num), seg_step b 640 1 641 (by norm_num),
    seg_step b 128 512 640 (by norm_num), seg_step b 96 32 128 (by norm_num),
    seg_step b 64 32 96 (by norm_num), seg_step b 60 4 64 (by norm_num),
    seg_step b 56 4 60 (by norm_num), seg_step b 48 8 56 (by norm_num),
    seg_step b 40 8 48 (by norm_num), seg_step b 32 8 40 (by norm_num),
    seg_step b 24 8 32 (by norm_num), seg_step b 16 8 24 (by norm_num),
    seg_step b 8 8 16 (by norm_num), seg_step b 4 4 8 (by norm_num),
    seg_step b 0 4 4 (by norm_num)]
  exact List.drop_zero b

theorem length_setRange (l : Bytes) (off : Nat) (v : Bytes)
    (h : off + v.length ≤ l.length) : (setRange l off v).length = l.length := by
  simp only [setRange, List.length_append, List.length_take, List.length_drop]
  omega

theorem setRange_setRange (l : Bytes) (off : Nat) (v w : Bytes)
    (hvw : v.length = w.length) (h : off + v.length ≤ l.length) :
    setRange (setRange l off v) off w = setRange l off w := by
  unfold setRange
  have htl : (l.take off).length = off := by
    simp only [List.length_take]; omega
  simp only [List.append_assoc]
  rw [List.take_left' htl]
  rw [← List.append_assoc (l.take off) v (l.drop (off + v.length))]
  have hl2 : (l.take off ++ v).length = off + w.length := by
    simp only [List.length_append, htl, hvw]
  rw [List.drop_left' hl2, hvw]

theorem packRaw_length_ge_8 (i : Index) : 8 ≤ i.packRaw.length := by
  simp only [Index.packRaw, List.length_append, length_toLE]
  omega

theorem zeroChecksumField_pack (i : Index) :
    zeroChecksumField i.pack = zeroChecksumField i.packRaw := by
  have h8 : 8 ≤ i.packRaw.length := packRaw_length_ge_8 i
  have hzlen : (setRange i.packRaw 4 [0, 0, 0, 0]).length = i.packRaw.length :=
    length_setRange _ 4 _ (by simp only [List.length_cons, List.length_nil]; omega)
  simp only [Index.pack, zeroChecksumField]
  rw [setRange_setRange _ 4 _ _ (by simp) (by simp only [length_toLE]; omega)]
  rw [setRange_setRange _ 4 _ _ (by simp)
    (by simp only [List.length_cons, List.length_nil]; omega)]

theorem zeroChecksumField_pack_parse (b : Bytes) (hlen : b.length = 8192)
    (hb : IsBytes b) :
    zeroChecksumField (Index.parse b).pack = zeroChecksumField b := by
  rw [zeroChecksumField_pack, packRaw_parse b hlen hb]

/-! ## Reader (`format_2025/reader.rs`) -/

/-- Opening sentinel bytes of the MagicTrailer (package emoji). -/
def PACKAGE_EMOJI_BYTES : Bytes := [0xF0, 0x9F, 0x93, 0xA6]

/-- Closing sentinel bytes of the MagicTrailer (magic wand emoji). -/
def MAGIC_WAND_EMOJI_BYTES : Bytes := [0xF0, 0x9F, 0xAA, 0x84]

/-- Index block size (`HEADER_SIZE`). -/
def HEADER_SIZE : Nat := 8192

/-- MagicTrailer size: sentinel + index + sentinel (`MAGIC_TRAILER_SIZE`). -/
def MAGIC_TRAILER_SIZE : Nat := 8200

/-- `Reader::read_magic_trailer`: read the last 8200 bytes and check both
sentinels.  There is no explicit size check: the offset is the u64
subtraction `file_size - 8200`, which wraps modulo `2 ^ 64` for files
shorter than 8200 bytes (release-profile semantics), after which the read
itself fails with an I/O error. -/
def read_magic_trailer (file : Bytes) : Except Err Bytes :=
  let fileSize := file.length
  let off := (fileSize + (2 ^ 64 - MAGIC_TRAILER_SIZE)) % 2 ^ 64
  match readAt file off MAGIC_TRAILER_SIZE with
  | Option.none => .error .ioError
  | Option.some trailer =>
    if trailer.take 4 ≠ PACKAGE_EMOJI_BYTES then .error .invalidMagicStart
    else if trailer.drop (MAGIC_TRAILER_SIZE - 4) ≠ MAGIC_WAND_EMOJI_BYTES then
      .error .invalidMagicEnd
    else .ok (slice trailer 4 HEADER_SIZE)

/-- `Reader::read_index`: locate the trailer and parse the index.  The index
checksum is *not* verified here (a mismatch only logs a warning). -/
def read_index (file : Bytes) : Except Err Index := do
  let indexData ← read_magic_trailer file
  Index.unpack indexData

/-- The 8192-byte index block of a package, as the spec locates it:
bytes `[size - 8196, size - 4)`. -/
def indexBlockOf (file : Bytes) : Bytes := slice file (file.length - 8196) 8192

theorem read_magic_trailer_small (file : Bytes) (hbound : file.length < 2 ^ 64)
    (hsmall : file.length < 8200) : read_magic_trailer file = .error .ioError := by
  simp only [read_magic_trailer, MAGIC_TRAILER_SIZE, readAt]
  have hmod : (file.length + (2 ^ 64 - 8200)) % 2 ^ 64 =
      file.length + (2 ^ 64 - 8200) := by
    apply Nat.mod_eq_of_lt
    omega
  rw [hmod, if_neg (by omega)]

theorem read_magic_trailer_large (file : Bytes) (hbound : file.length < 2 ^ 64)
    (hbig : 8200 ≤ file.length) :
    read_magic_trailer file =
      if slice file (file.length - 8200) 4 = PACKAGE_EMOJI_BYTES then
        (if slice file (file.length - 4) 4 = MAGIC_WAND_EMOJI_BYTES then
          .ok (indexBlockOf file)
        else .error .invalidMagicEnd)
      else .error .invalidMagicStart := by
  simp only [read_magic_trailer, MAGIC_TRAILER_SIZE]
  have hmod : (file.length + (2 ^ 64 - 8200)) % 2 ^ 64 = file.length - 8200 := by
    have h1 : file.length + (2 ^ 64 - 8200) = (file.length - 8200) + 2 ^ 64 := by
      omega
    rw [h1, Nat.add_mod_right]
    apply Nat.mod_eq_of_lt
    omega
  rw [hmod]
  unfold readAt
  have hle : file.length - 8200 + 8200 ≤ file.length := by omega
  simp only [hle, if_pos]
  have htake : (slice file (file.length - 8200) 8200).take 4 =
      slice file (file.length - 8200) 4 := by
    simp only [slice, List.take_take]
    norm_num
  have hdroptk : (slice file (file.length - 8200) 8200).drop 8196 =
      slice file (file.length - 4) 4 := by
    simp only [slice, List.drop_take, List.drop_drop]
    have h2 : file.length - 8200 + 8196 = file.length - 4 := by omega
    rw [h2]
  have hmid : slice (slice file (file.length - 8200) 8200) 4 HEADER_SIZE =
      indexBlockOf file := by
    simp only [slice, indexBlockOf, HEADER_SIZE, List.drop_take, List.drop_drop]
    have h2 : file.length - 8200 + 4 = file.length - 8196 := by omega
    rw [h2, List.take_take]
    norm_num
  simp only [htake, hdroptk, hmid]
  by_cases hm1 : slice file (file.length - 8200) 4 = PACKAGE_EMOJI_BYTES <;>
    by_cases hm2 : slice file (file.length - 4) 4 = MAGIC_WAND_EMOJI_BYTES <;>
      simp [hm1, hm2]

/-! ## Metadata structures (`format_2025/metadata.rs`)

`serde_json::Value` payloads that the core never inspects (cache_validation,
runtime, workenv, setup_commands) are carried as opaque `String` blobs;
`HashMap<String, String>` becomes an association list. -/

structure PackageInfo where
  name : String
  version : String
deriving DecidableEq, Repr

structure SlotMetadata where
  index : Nat
  id : String
  source : String
  target : String
  size : Int
  checksum : String
  operations : String
  purpose : String
  lifecycle : String
  permissions : Option String
  resolution : Option String
  self_ref : Option Bool
deriving DecidableEq, Repr

structure ExecutionInfo where
  primary_slot : Nat
  command : String
  env : List (String × String)
deriving DecidableEq, Repr

structure IntegritySealInfo where
  required : Bool
  algorithm : String
deriving DecidableEq, Repr

structure VerificationInfo where
  integrity_seal : IntegritySealInfo
  signed : Bool
  require_verification : Bool
  trust_signatures : Option String
deriving DecidableEq, Repr

structure PlatformInfo where
  os : String
  arch : String
  host : String
deriving DecidableEq, Repr

structure BuildInfo where
  tool : String
  tool_version : String
  timestamp : String
  deterministic : Bool
  platform : PlatformInfo
deriving DecidableEq, Repr

structure LauncherInfo where
  tool : String
  tool_version : String
  size : Int
  checksum : String
  capabilities : List String
deriving DecidableEq, Repr

structure CompatibilityInfo where
  min_format_version : String
  features : List String
deriving DecidableEq, Repr

structure Metadata where
  format : String
  format_version : Option String
  package : PackageInfo
  slots : List SlotMetadata
  execution : ExecutionInfo
  verification : Option VerificationInfo
  build : Option BuildInfo
  launcher : Option LauncherInfo
  compatibility : Option CompatibilityInfo
  cache_validation : Option String
  runtime : Option String
  workenv : Option String
  setup_commands : List String
deriving DecidableEq, Repr

/-- `ValidationLevel` (defaults.rs): the `FLAVOR_VALIDATION` tier. -/
inductive ValidationLevel where
  | strict
  | standard
  | relaxed
  | minimal
  | off
deriving DecidableEq, Repr

/-- `Reader::read_metadata`: read `metadata_size` bytes at `metadata_offset`,
verify the full 32-byte SHA-256 against `metadata_checksum` (a mismatch is an
unconditional error), gunzip, parse JSON.

`ambient` is the `FLAVOR_VALIDATION` tier visible to the process; the source
never consults it on this path, which the `ambient`-independence theorem
records.  `gunzipString` models `GzDecoder` + `read_to_string` (fails on bad
gzip data or invalid UTF-8); `parseJson` models `serde_json::from_str`. -/
def read_metadata (ambient : ValidationLevel)
    (gunzipString : Bytes → Option Bytes) (parseJson : Bytes → Option Metadata)
    (file : Bytes) : Except Err Metadata := do
  let index ← read_index file
  match readAt file index.metadata_offset index.metadata_size with
  | Option.none => .error .ioError
  | Option.some metadataData =>
    if sha256 metadataData ≠ index.metadata_checksum then .error .checksumMismatch
    else match gunzipString metadataData with
      | Option.none => .error .gunzipError
      | Option.some jsonData =>
        match parseJson jsonData with
        | Option.none => .error .jsonParseError
        | Option.some md => .ok md

/-! ## Verifier (`format_2025/verifier.rs`) -/

structure VerifyResult where
  format : String
  version : String
  signature_valid : Bool
  slot_count : Nat
  package_name : String
  package_version : String
deriving DecidableEq, Repr

/-- `verify_index_checksum`: re-pack the parsed index, zero bytes `[4, 8)`,
Adler-32 the result and compare with the stored `index_checksum`. -/
def verify_index_checksum (index : Index) : Bool :=
  adler32 (zeroChecksumField index.pack) == index.index_checksum

/-- `verify_metadata_checksum`: SHA-256 of the stored compressed metadata
bytes against `metadata_checksum`. -/
def verify_metadata_checksum (file : Bytes) (index : Index) : Except Err Bool :=
  match readAt file index.metadata_offset index.metadata_size with
  | Option.none => .error .ioError
  | Option.some m => .ok (sha256 m == index.metadata_checksum)

/-- `verify_trailing_magic`: the last 4 bytes must be the wand sentinel
(`SeekFrom::End(-4)` fails on files shorter than 4 bytes). -/
def verify_trailing_magic (file : Bytes) : Except Err Bool :=
  if file.length < 4 then .error .ioError
  else .ok (slice file (file.length - 4) 4 == MAGIC_WAND_EMOJI_BYTES)

/-- `verify_integrity_seal`: decompress the metadata (capped at 1 MiB by
`.take`), then check the Ed25519 signature (first 64 bytes of the 512-byte
field) with the public key from the index.  An all-zero signature or key
yields `false`; an undecodable key is an error.  `K` is the type of parsed
verifying keys; `gunzipRaw` models `GzDecoder` + `read_to_end`. -/
def verify_integrity_seal {K : Type} (gunzipRaw : Bytes → Option Bytes)
    (edParseKey : Bytes → Option K) (edVerify : K → Bytes → Bytes → Bool)
    (file : Bytes) (index : Index) : Except Err Bool :=
  match readAt file index.metadata_offset index.metadata_size with
  | Option.none => .error .ioError
  | Option.some m =>
    match gunzipRaw m with
    | Option.none => .error .gunzipError
    | Option.some json0 =>
      let jsonBytes := json0.take 1048576
      if index.integrity_signature.all (· = 0) then .ok false
      else if index.public_key.all (· = 0) then .ok false
      else match edParseKey index.public_key with
        | Option.none => .error .invalidPublicKey
        | Option.some k =>
          .ok (edVerify k jsonBytes (index.integrity_signature.take 64))

/-- `verify`: read index and metadata, run the five independent checks, and
report their conjunction as `signature_valid`. -/
def verify {K : Type} (ambient : ValidationLevel)
    (gunzipString gunzipRaw : Bytes → Option Bytes)
    (parseJson : Bytes → Option Metadata)
    (edParseKey : Bytes → Option K) (edVerify : K → Bytes → Bytes → Bool)
    (file : Bytes) : Except Err VerifyResult := do
  let fileSize := file.length
  let index ← read_index file
  let metadata ← read_metadata ambient gunzipString parseJson file
  let indexChecksumValid := verify_index_checksum index
  let metadataChecksumValid ← verify_metadata_checksum file index
  let sizeValid := index.package_size == fileSize
  let integritySealValid ← verify_integrity_seal gunzipRaw edParseKey edVerify file index
  let trailingMagicValid ← verify_trailing_magic file
  let signatureValid := indexChecksumValid && metadataChecksumValid && sizeValid
    && integritySealValid && trailingMagicValid
  .ok { format := "PSPF/2025"
        version := "0x" ++ toHex8 FORMAT_VERSION
        signature_valid := signatureValid
        slot_count := metadata.slots.length
        package_name := metadata.package.name
        package_version := metadata.package.version }

/-! ## Operation codes (constants.rs) -/

def OP_NONE : Nat := 0x00
def OP_TAR : Nat := 0x01
def OP_GZIP : Nat := 0x10
def OP_BZIP2 : Nat := 0x13
def OP_XZ : Nat := 0x16
def OP_ZSTD : Nat := 0x1B

/-- Little-endian byte `i` of a packed u64, as `chain.rs` extracts it:
`(packed >> (i * 8)) & 0xFF`. -/
def byteAt (p i : Nat) : Nat := (p >>> (i * 8)) &&& 0xFF

/-! ## `operations/chain.rs`: pack with an error on overflow, unpack stops at
the first zero byte -/

namespace Chain

/-- `OperationError::InvalidData(msg)`. -/
inductive OperationError where
  | invalidData (msg : String)
deriving DecidableEq, Repr

/-- `chain.rs pack_operations`: reject more than 8 operations, otherwise OR
each code into its byte position. -/
def pack_operations (operations : List Nat) : Except OperationError Nat :=
  if operations.length > 8 then
    .error (.invalidData
      ("Maximum 8 operations allowed, got " ++ toString operations.length))
  else
    .ok (operations.enum.foldl (fun packed p => packed ||| (p.2 <<< (p.1 * 8))) 0)

/-- Loop body of `chain.rs unpack_operations`: read byte `i`, stop at the
first zero byte (`OP_NONE` terminates the chain), at most `fuel` bytes. -/
def unpackFrom (packed : Nat) : Nat → Nat → List Nat
  | 0, _ => []
  | fuel + 1, i =>
    let op := byteAt packed i
    if op = 0 then [] else op :: unpackFrom packed fuel (i + 1)

/-- `chain.rs unpack_operations`. -/
def unpack_operations (packed : Nat) : List Nat := unpackFrom packed 8 0

end Chain

/-! ## `format_2025/operations.rs`: pack truncates to 8, unpack *skips* zero
bytes but keeps scanning all 8 positions -/

namespace Ops

/-- `format_2025/operations.rs pack_operations`: codes beyond the first 8 are
dropped with a warning (the `break` is modeled by `take 8`). -/
def pack_operations (operations : List Nat) : Nat :=
  (operations.take 8).enum.foldl (fun packed p => packed ||| (p.2 <<< (p.1 * 8))) 0

/-- Loop body of `format_2025/operations.rs unpack_operations`: mask out byte
`i` and keep it when non-zero; zero bytes are skipped, not terminating. -/
def unpackFrom (packed : Nat) : Nat → Nat → List Nat
  | 0, _ => []
  | fuel + 1, i =>
    let shift := i * 8
    let mask := 0xFF <<< shift
    let op := (packed &&& mask) >>> shift
    if op ≠ 0 then op :: unpackFrom packed fuel (i + 1)
    else unpackFrom packed fuel (i + 1)

/-- `format_2025/operations.rs unpack_operations` (the variant the extraction
engine uses). -/
def unpack_operations (packed : Nat) : List Nat := unpackFrom packed 8 0

end Ops

/-! ### Characterizations of packing and unpacking -/

theorem byteAt_eq_div_mod (p i : Nat) : byteAt p i = p / 2 ^ (i * 8) % 256 := by
  unfold byteAt
  rw [Nat.shiftRight_eq_div_pow]
  have h255 : (0xFF : Nat) = 2 ^ 8 - 1 := by norm_num
  rw [h255, Nat.and_pow_two_sub_one_eq_mod]

theorem and_shift_shift (p s : Nat) : (p &&& (0xFF <<< s)) >>> s = (p >>> s) &&& 0xFF := by
  apply Nat.eq_of_testBit_eq
  intro j
  simp only [Nat.testBit_shiftRight, Nat.testBit_and, Nat.testBit_shiftLeft]
  have h1 : s ≤ s + j := by omega
  have h2 : s + j - s = j := by omega
  simp [h1, h2]

theorem pack_enumFrom (V : List Nat) (hb : ∀ x ∈ V, x < 256) :
    ∀ (j acc : Nat), acc < 2 ^ (8 * j) →
    (List.enumFrom j V).foldl (fun packed p => packed ||| (p.2 <<< (p.1 * 8))) acc
      = acc + fromLE V * 2 ^ (8 * j) := by
  induction V with
  | nil => intro j acc _; simp [fromLE]
  | cons v rest ih =>
    intro j acc hacc
    have hv : v < 256 := hb v (List.mem_cons_self _ _)
    have hrest : ∀ x ∈ rest, x < 256 := fun x hx => hb x (List.mem_cons_of_mem _ hx)
    simp only [List.enumFrom, List.foldl_cons]
    have hshift : v <<< (j * 8) = v * 2 ^ (8 * j) := by
      rw [Nat.shiftLeft_eq, Nat.mul_comm j 8]
    have hor : acc ||| (v <<< (j * 8)) = acc + v * 2 ^ (8 * j) := by
      rw [hshift]
      have h1 : 2 ^ (8 * j) * v + acc = 2 ^ (8 * j) * v ||| acc :=
        Nat.mul_add_lt_is_or hacc v
      calc acc ||| v * 2 ^ (8 * j) = v * 2 ^ (8 * j) ||| acc := Nat.or_comm _ _
        _ = 2 ^ (8 * j) * v ||| acc := by rw [Nat.mul_comm]
        _ = 2 ^ (8 * j) * v + acc := h1.symm
        _ = acc + v * 2 ^ (8 * j) := by ring
    rw [hor]
    have hacc2 : acc + v * 2 ^ (8 * j) < 2 ^ (8 * (j + 1)) := by
      have hexp : 2 ^ (8 * (j + 1)) = 2 ^ (8 * j) * 256 := by
        rw [Nat.mul_add, Nat.pow_add]
      calc acc + v * 2 ^ (8 * j) < 2 ^ (8 * j) + 255 * 2 ^ (8 * j) := by
            have := Nat.mul_le_mul_right (2 ^ (8 * j)) (show v ≤ 255 by omega)
            omega
        _ = 2 ^ (8 * j) * 256 := by ring
        _ = 2 ^ (8 * (j + 1)) := hexp.symm
    rw [ih hrest (j + 1) _ hacc2]
    have hexp : 2 ^ (8 * (j + 1)) = 2 ^ (8 * j) * 256 := by
      rw [Nat.mul_add, Nat.pow_add]
    rw [hexp]
    simp only [fromLE]
    ring

/-- The OR-accumulation of `pack_operations` is exactly the little-endian
value of the operation byte list. -/
theorem pack_foldl_eq_fromLE (V : List Nat) (hb : ∀ x ∈ V, x < 256) :
    V.enum.foldl (fun packed p => packed ||| (p.2 <<< (p.1 * 8))) 0 = fromLE V := by
  have h := pack_enumFrom V hb 0 0 (by norm_num)
  simpa [List.enum] using h

theorem byteAt_fromLE (V : List Nat) (hb : ∀ x ∈ V, x < 256) :
    ∀ i, byteAt (fromLE V) i = V.getD i 0 := by
  induction V with
  | nil =>
    intro i
    simp [byteAt_eq_div_mod, fromLE, List.getD]
  | cons v rest ih =>
    intro i
    have hv : v < 256 := hb v (List.mem_cons_self _ _)
    have hrest : ∀ x ∈ rest, x < 256 := fun x hx => hb x (List.mem_cons_of_mem _ hx)
    match i with
    | 0 =>
      simp only [byteAt_eq_div_mod, fromLE, Nat.zero_mul, Nat.pow_zero, Nat.div_one]
      simp [List.getD]
      omega
    | i + 1 =>
      have h1 : byteAt (fromLE (v :: rest)) (i + 1) = byteAt (fromLE rest) i := by
        simp only [byteAt_eq_div_mod, fromLE]
        have hexp : 2 ^ ((i + 1) * 8) = 256 * 2 ^ (i * 8) := by
          rw [Nat.add_mul, Nat.pow_add]; ring
        rw [hexp, ← Nat.div_div_eq_div_mul]
        have : (v + 256 * fromLE rest) / 256 = fromLE rest := by omega
        rw [this]
      rw [h1, ih hrest i]
      rfl

theorem chain_unpackFrom_eq (p : Nat) :
    ∀ (fuel i : Nat), Chain.unpackFrom p fuel i =
      ((List.range fuel).map (fun k => byteAt p (i + k))).takeWhile (· ≠ 0) := by
  intro fuel
  induction fuel with
  | zero => intro i; simp [Chain.unpackFrom]
  | succ fuel ih =>
    intro i
    rw [List.range_succ_eq_map]
    simp only [Chain.unpackFrom, List.map_cons, List.takeWhile_cons, Nat.add_zero,
      List.map_map]
    have hmapeq : (List.range fuel).map ((fun k => byteAt p (i + k)) ∘ Nat.succ)
        = (List.range fuel).map (fun k => byteAt p (i + 1 + k)) := by
      apply List.map_congr_left
      intro a _
      simp only [Function.comp]
      have : i + (a + 1) = i + 1 + a := by omega
      rw [Nat.succ_eq_add_one, this]
    rw [hmapeq, ← ih (i + 1)]
    by_cases h : byteAt p i = 0
    · simp [h]
    · simp [h]

/-- Masking then shifting (the `operations.rs` byte extraction) agrees with
shifting then masking (the `chain.rs` byte extraction). -/
theorem masked_byteAt (p i : Nat) :
    (p &&& (0xFF <<< (i * 8))) >>> (i * 8) = byteAt p i :=
  and_shift_shift p (i * 8)

theorem ops_unpackFrom_eq (p : Nat) :
    ∀ (fuel i : Nat), Ops.unpackFrom p fuel i =
      ((List.range fuel).map (fun k => byteAt p (i + k))).filter (· ≠ 0) := by
  intro fuel
  induction fuel with
  | zero => intro i; simp [Ops.unpackFrom]
  | succ fuel ih =>
    intro i
    rw [List.range_succ_eq_map]
    simp only [Ops.unpackFrom, masked_byteAt, List.map_cons, List.filter_cons,
      Nat.add_zero, List.map_map]
    have hmapeq : (List.range fuel).map ((fun k => byteAt p (i + k)) ∘ Nat.succ)
        = (List.range fuel).map (fun k => byteAt p (i + 1 + k)) := by
      apply List.map_congr_left
      intro a _
      simp only [Function.comp]
      have : i + (a + 1) = i + 1 + a := by omega
      rw [Nat.succ_eq_add_one, this]
    rw [hmapeq, ← ih (i + 1)]
    by_cases h : byteAt p i = 0
    · simp [h]
    · simp [h]

theorem getD_map_range (V : List Nat) :
    ∀ n, V.length ≤ n →
      (List.range n).map (fun k => V.getD k 0) = V ++ List.replicate (n - V.length) 0 := by
  induction V with
  | nil =>
    intro n _
    simp only [List.nil_append, Nat.sub_zero, List.length_nil]
    have hz : ∀ k, ([] : List Nat).getD k 0 = 0 := by
      intro k; simp [List.getD]
    calc (List.range n).map (fun k => ([] : List Nat).getD k 0)
        = (List.range n).map (fun _ => 0) :=
          List.map_congr_left fun a _ => hz a
      _ = List.replicate n 0 := by rw [List.map_const']; simp
  | cons v rest ih =>
    intro n hn
    match n with
    | m + 1 =>
      rw [List.range_succ_eq_map]
      simp only [List.map_cons, List.map_map, List.getD_cons_zero]
      have hmapeq : (List.range m).map ((fun k => (v :: rest).getD k 0) ∘ Nat.succ)
          = (List.range m).map (fun k => rest.getD k 0) := by
        apply List.map_congr_left
        intro a _
        simp [Function.comp, List.getD_cons_succ]
      rw [hmapeq, ih m (by simpa using hn)]
      simp

theorem takeWhile_append_all {p : Nat → Bool} (A B : List Nat)
    (h : ∀ a ∈ A, p a) : (A ++ B).takeWhile p = A ++ B.takeWhile p := by
  induction A with
  | nil => simp
  | cons a rest ih =>
    simp only [List.cons_append, List.takeWhile_cons]
    rw [if_pos (h a (List.mem_cons_self _ _)), ih fun x hx => h x (List.mem_cons_of_mem _ hx)]

/-! ## PE utilities (`format_2025/pe_utils.rs`)

Byte reads that Rust performs by direct indexing (which panics out of
bounds) are modeled by checked reads returning `Err.peOutOfBounds`. -/

/-- `TARGET_DOS_STUB_SIZE` (0xF0). -/
def TARGET_DOS_STUB_SIZE : Nat := 0xF0

/-- `is_pe_executable`: at least 2 bytes and an "MZ" signature. -/
def is_pe_executable (data : Bytes) : Bool :=
  decide (data.length ≥ 2) && data.getD 0 0 == 77 && data.getD 1 0 == 90

/-- `get_pe_header_offset`: `e_lfanew` at 0x3C, validated by the "PE\0\0"
signature at that offset. -/
def get_pe_header_offset (data : Bytes) : Option Nat :=
  if data.length < 0x40 then Option.none
  else
    let peOffset := readLE data 0x3C 4
    if data.length < peOffset + 4 then Option.none
    else if slice data peOffset 4 ≠ [80, 69, 0, 0] then Option.none
    else Option.some peOffset

/-- Launcher classification of `get_launcher_type` ("go" / "rust" /
"unknown"). -/
inductive LauncherType where
  | go
  | rust
  | unknown
deriving DecidableEq, Repr

/-- `get_launcher_type`: PE offset 0x80 is "go"; `≥ 0xE8` is "rust". -/
def get_launcher_type (data : Bytes) : LauncherType :=
  if ¬ is_pe_executable data then .unknown
  else match get_pe_header_offset data with
    | Option.none => .unknown
    | Option.some peOffset =>
      if peOffset = 0x80 then .go
      else if peOffset ≥ 0xE8 then .rust
      else .unknown

/-- `needs_dos_stub_expansion`: only a PE whose header offset is exactly
0x80 qualifies. -/
def needs_dos_stub_expansion (data : Bytes) : Bool :=
  if ¬ is_pe_executable data then false
  else match get_pe_header_offset data with
    | Option.none => false
    | Option.some peOffset => peOffset == 0x80

/-- Checked 4-byte little-endian read (`u32::from_le_bytes` on indexed
bytes: panics out of bounds). -/
def readLE4c (data : Bytes) (off : Nat) : Except Err Nat :=
  if off + 4 ≤ data.length then .ok (readLE data off 4) else .error .peOutOfBounds

/-- Checked 2-byte little-endian read. -/
def readLE2c (data : Bytes) (off : Nat) : Except Err Nat :=
  if off + 2 ≤ data.length then .ok (readLE data off 2) else .error .peOutOfBounds

/-- Checked 4-byte little-endian overwrite (`copy_from_slice`), with u32
wrap-around on the value. -/
def writeLE4c (data : Bytes) (off v : Nat) : Except Err Bytes :=
  if off + 4 ≤ data.length then .ok (setRange data off (toLE 4 (v % 2 ^ 32)))
  else .error .peOutOfBounds

/-- `update_section_offsets`: add `padding` to every non-zero
`PointerToRawData` in the section table. -/
def update_section_offsets (data : Bytes) (padding : Nat) : Except Err Bytes := do
  let peOffset ← readLE4c data 0x3C
  let coffOffset := peOffset + 4
  let numSections ← readLE2c data (coffOffset + 2)
  let optHdrSize ← readLE2c data (coffOffset + 16)
  let sectionTableOffset := coffOffset + 20 + optHdrSize
  (List.range numSections).foldlM
    (fun d i => do
      let ptrOffset := sectionTableOffset + i * 40 + 20
      let currentPtr ← readLE4c d ptrOffset
      if currentPtr > 0 then writeLE4c d ptrOffset (currentPtr + padding)
      else pure d)
    data

/-- `update_size_of_headers`: add `padding` to `SizeOfHeaders`
(optional header + 60); an out-of-bounds offset is an explicit error. -/
def update_size_of_headers (data : Bytes) (padding : Nat) : Except Err Bytes := do
  let peOffset ← readLE4c data 0x3C
  let coffOffset := peOffset + 4
  let sizeOfHeadersOffset := coffOffset + 20 + 60
  if sizeOfHeadersOffset + 4 > data.length then .error .peInvalid
  else do
    let currentSize ← readLE4c data sizeOfHeadersOffset
    writeLE4c data sizeOfHeadersOffset (currentSize + padding)

/-- `update_data_directories`: bump the Certificate Table file offset (data
directory 4) when `≥ 0x80`, and zero the optional-header `CheckSum`. -/
def update_data_directories (data : Bytes) (padding : Nat) : Except Err Bytes := do
  let peOffset ← readLE4c data 0x3C
  let coffOffset := peOffset + 4
  let magic ← readLE2c data (coffOffset + 20)
  let dataDirOffset := if magic = 0x20B then coffOffset + 20 + 112
    else coffOffset + 20 + 96
  let certEntryOffset := dataDirOffset + 4 * 8
  let data1 ←
    if certEntryOffset + 8 > data.length then pure data
    else do
      let certFileOffset ← readLE4c data certEntryOffset
      if certFileOffset ≥ 0x80 then
        writeLE4c data certEntryOffset (certFileOffset + padding)
      else pure data
  let checksumOffset := coffOffset + 20 + 64
  writeLE4c data1 checksumOffset 0

/-- `rva_to_file_offset`: walk the section table, returning the file offset
of the first section containing the RVA. -/
def rva_loop (data : Bytes) (sectionTableOffset rva : Nat) :
    List Nat → Except Err (Option Nat)
  | [] => .ok Option.none
  | i :: rest => do
    let sectionOffset := sectionTableOffset + i * 40
    let virtualAddr ← readLE4c data (sectionOffset + 12)
    let virtualSize ← readLE4c data (sectionOffset + 8)
    let pointerToRawData ← readLE4c data (sectionOffset + 20)
    if virtualAddr ≤ rva ∧ rva < virtualAddr + virtualSize then
      .ok (Option.some (pointerToRawData + (rva - virtualAddr)))
    else rva_loop data sectionTableOffset rva rest

/-- `rva_to_file_offset`. -/
def rva_to_file_offset (data : Bytes) (rva : Nat) : Except Err (Option Nat) := do
  let peOffset ← readLE4c data 0x3C
  let coffOffset := peOffset + 4
  let numSections ← readLE2c data (coffOffset + 2)
  let optHdrSize ← readLE2c data (coffOffset + 16)
  rva_loop data (coffOffset + 20 + optHdrSize) rva (List.range numSections)

/-- `update_debug_directory`: bump every debug-directory entry
`PointerToRawData ≥ 0x80`; entries beyond the file are skipped. -/
def update_debug_directory (data : Bytes) (padding : Nat) : Except Err Bytes := do
  let peOffset ← readLE4c data 0x3C
  let coffOffset := peOffset + 4
  let magic ← readLE2c data (coffOffset + 20)
  let dataDirOffset := if magic = 0x20B then coffOffset + 20 + 112
    else coffOffset + 20 + 96
  let debugDirEntryOffset := dataDirOffset + 6 * 8
  if debugDirEntryOffset + 8 > data.length then pure data
  else do
    let debugDirRva ← readLE4c data debugDirEntryOffset
    let debugDirSize ← readLE4c data (debugDirEntryOffset + 4)
    if debugDirRva = 0 ∨ debugDirSize = 0 then pure data
    else do
      match ← rva_to_file_offset data debugDirRva with
      | Option.none => pure data
      | Option.some debugDirFileOffset =>
        let numDebugEntries := debugDirSize / 28
        (List.range numDebugEntries).foldlM
          (fun d i => do
            let ptrRawDataOffset := debugDirFileOffset + i * 28 + 24
            if ptrRawDataOffset + 4 > d.length then pure d
            else do
              let currentPtr ← readLE4c d ptrRawDataOffset
              if currentPtr ≥ 0x80 then
                writeLE4c d ptrRawDataOffset (currentPtr + padding)
              else pure d)
          data

/-- `expand_dos_stub`: no-op for PE offsets `≥ 0xF0`; otherwise grow the DOS
stub to 0xF0 with zero padding, retarget `e_lfanew`, and fix up section
offsets, `SizeOfHeaders`, data directories, and the debug directory. -/
def expand_dos_stub (data : Bytes) : Except Err Bytes := do
  if ¬ is_pe_executable data then .error .peInvalid
  else match get_pe_header_offset data with
  | Option.none => .error .peInvalid
  | Option.some currentPeOffset =>
    if currentPeOffset ≥ TARGET_DOS_STUB_SIZE then .ok data
    else do
      let padding := TARGET_DOS_STUB_SIZE - currentPeOffset
      let newData := data.take currentPeOffset ++ List.replicate padding 0
        ++ data.drop currentPeOffset
      let newData := setRange newData 0x3C (toLE 4 TARGET_DOS_STUB_SIZE)
      let newData ← update_section_offsets newData padding
      let newData ← update_size_of_headers newData padding
      let newData ← update_data_directories newData padding
      let newData ← update_debug_directory newData padding
      match get_pe_header_offset newData with
      | Option.none => .error .peInvalid
      | Option.some newPeOffset =>
        if newPeOffset ≠ TARGET_DOS_STUB_SIZE then .error .peVerifyFailed
        else .ok newData

/-- `process_launcher_for_pspf`: the hybrid strategy dispatch.  Non-PE and
"go"/"unknown" launchers pass through; a "rust" launcher is expanded only
when `needs_dos_stub_expansion` holds. -/
def process_launcher_for_pspf (launcher_data : Bytes) : Except Err Bytes :=
  if ¬ is_pe_executable launcher_data then .ok launcher_data
  else match get_launcher_type launcher_data with
    | .go => .ok launcher_data
    | .rust =>
      if needs_dos_stub_expansion launcher_data then expand_dos_stub launcher_data
      else .ok launcher_data
    | .unknown => .ok launcher_data

/-- The two detection predicates are incompatible: a "rust"-classified
launcher (PE offset `≥ 0xE8`) never satisfies `needs_dos_stub_expansion`
(PE offset `= 0x80`), so `process_launcher_for_pspf` is the identity on
every input. -/
theorem process_launcher_for_pspf_id (data : Bytes) :
    process_launcher_for_pspf data = .ok data := by
  by_cases hpe : is_pe_executable data
  · cases hoff : get_pe_header_offset data with
    | none =>
      unfold process_launcher_for_pspf get_launcher_type
      simp [hpe, hoff]
    | some o =>
      unfold process_launcher_for_pspf get_launcher_type needs_dos_stub_expansion
      by_cases h80 : o = 0x80
      · simp [hpe, hoff, h80]
      · by_cases hE8 : o ≥ 0xE8
        · simp [hpe, hoff, h80, hE8]
        · simp [hpe, hoff, h80, hE8]
  · unfold process_launcher_for_pspf
    simp [hpe]

/-! ## Extraction (`format_2025/extraction.rs`)

`extract_slot` is embedded over the values its `Reader` collaborator
returns: the parsed descriptor table, the metadata slot list, and the raw
slot bytes; `gunzip` models `GzDecoder::read_to_end` on a slot payload.
The two filesystem shapes it produces (a tar extraction rooted at the
destination, or a single file with an explicit mode) are returned as an
`ExtractOutcome` instead of being written to disk. -/

def DEFAULT_FILE_PERMS : Nat := 0o600
def DEFAULT_DIR_PERMS : Nat := 0o700

structure SlotDescriptor where
  id : Nat
  name_hash : Nat
  offset : Nat
  size : Nat
  original_size : Nat
  operations : Nat
  checksum : Nat
  purpose : Nat
  lifecycle : Nat
  priority : Nat
  platform : Nat
  reserved1 : Nat
  reserved2 : Nat
  permissions : Nat
  permissions_high : Nat
deriving DecidableEq, Repr

/-- `SlotDescriptor::pack`: the 64-byte little-endian descriptor. -/
def SlotDescriptor.pack (d : SlotDescriptor) : Bytes :=
  toLE 8 d.id ++ toLE 8 d.name_hash ++ toLE 8 d.offset ++ toLE 8 d.size ++
  toLE 8 d.original_size ++ toLE 8 d.operations ++ toLE 8 d.checksum ++
  [d.purpose % 256, d.lifecycle % 256, d.priority % 256, d.platform % 256,
   d.reserved1 % 256, d.reserved2 % 256, d.permissions % 256,
   d.permissions_high % 256]

/-- `is_tarball`: "ustar" at byte offset 257 and more than 262 bytes. -/
def is_tarball (data : Bytes) : Bool :=
  if data.length > 262 then slice data 257 5 == [117, 115, 116, 97, 114]
  else false

/-- The reversed operation loop of `extract_slot`: `OP_GZIP` inflates,
`OP_TAR` passes through (extraction happens later), anything else is fatal. -/
def apply_ops (gunzip : Bytes → Option Bytes) :
    List Nat → Bytes → Except Err Bytes
  | [], data => .ok data
  | op :: rest, data =>
    if op = OP_GZIP then
      match gunzip data with
      | Option.none => .error .gzipDecompress
      | Option.some d => apply_ops gunzip rest d
    else if op = OP_TAR then apply_ops gunzip rest data
    else .error (.unknownOperation op)

/-- Operations are applied in reverse order during extraction. -/
def process_operations (gunzip : Bytes → Option Bytes) (operations : List Nat)
    (data : Bytes) : Except Err Bytes :=
  apply_ops gunzip operations.reverse data

/-- Rust `String::contains` for a literal pattern. -/
def containsSub (s pat : String) : Bool := (s.splitOn pat).length != 1

/-- The `{workenv}` stripping applied to a slot target before extraction. -/
def strip_workenv (target : String) : String :=
  if containsSub target "{workenv}" then
    (target.replace "{workenv}/" "").replace "{workenv}" ""
  else target

/-- `Path::join` with a relative right-hand side. -/
def path_join (dir name : String) : String := dir ++ "/" ++ name

/-- `set_file_permissions`: both permission bytes combined; zero means the
0o600 default. -/
def slot_file_mode (d : SlotDescriptor) : Nat :=
  let perms := d.permissions ||| (d.permissions_high <<< 8)
  if perms ≠ 0 then perms else DEFAULT_FILE_PERMS

/-- What `extract_slot` materialises. -/
inductive ExtractOutcome where
  | tarball (destDir : String) (data : Bytes)
  | singleFile (path : String) (mode : Nat) (data : Bytes)
deriving DecidableEq, Repr

/-- `extract_slot` (reader interactions abstracted to their results):
look up the descriptor, unpack its operation chain with the
`format_2025/operations.rs` decoder, apply the chain in reverse, strip
`{workenv}` from the metadata target, then either extract a tarball (with a
mandatory "ustar" signature when `OP_TAR` was declared) or emit a single
file with the descriptor-derived mode. -/
def extract_slot (gunzip : Bytes → Option Bytes)
    (descriptors : List SlotDescriptor) (slots : List SlotMetadata)
    (dest_dir : String) (slot_index : Nat) (slot_data : Bytes) :
    Except Err ExtractOutcome :=
  if h : slot_index < descriptors.length then
    let descriptor := descriptors.get ⟨slot_index, h⟩
    let operations := Ops.unpack_operations descriptor.operations
    match process_operations gunzip operations slot_data with
    | .error e => .error e
    | .ok decompressed =>
      let slotTarget := match slots.get? slot_index with
        | Option.some s => s.target
        | Option.none => "slot_" ++ toString slot_index
      let slotTarget := strip_workenv slotTarget
      if operations.contains OP_TAR then
        if ¬ is_tarball decompressed then .error .operationMismatch
        else .ok (.tarball dest_dir decompressed)
      else
        .ok (.singleFile (path_join dest_dir slotTarget)
          (slot_file_mode descriptor) decompressed)
  else .error (.slotOutOfRange slot_index)

/-! ## Workenv validation (`format_2025/execution/validation.rs`)

The filesystem state is passed explicitly: whether the `complete` marker
exists, and the content of `package.checksum` (`none` models a read
failure, which the source treats as "cache invalid"). -/

/-- `validate_package_checksum`: compare the trimmed stored string with the
current checksum in `{:08x}` form; a mismatch is an error only under the
strict tier, otherwise merely invalid. -/
def validate_package_checksum (lvl : ValidationLevel) (stored : Option String)
    (current_checksum : Nat) : Except Err Bool :=
  match stored with
  | Option.none => .ok false
  | Option.some data =>
    let storedChecksum := rustTrim data
    let currentStr := toHex8 current_checksum
    if storedChecksum = currentStr then .ok true
    else match lvl with
      | .strict => .error (.packageChecksumMismatch storedChecksum currentStr)
      | _ => .ok false

/-- `check_workenv_validity_full`: the completion marker must exist, then
the cached checksum must match. -/
def check_workenv_validity_full (lvl : ValidationLevel) (complete_exists : Bool)
    (stored : Option String) (index_checksum : Nat) : Except Err Bool :=
  if ¬ complete_exists then .ok false
  else validate_package_checksum lvl stored index_checksum

/-! ## Builder (`format_2025/builder/*`)

The builder is embedded end to end.  External library primitives appear as
the fields of `BuildDeps`: as Lean functions they are pure, which encodes
the modeling assumption that serde-JSON serialisation, gzip compression,
Ed25519 signing/derivation, chrono parsing/formatting, UTF-8 encoding and
path splitting are deterministic functions of their inputs.  `BuildEnv`
carries everything the build reads from its surroundings: environment
variables, the clock, the hostname, OS randomness, and file contents. -/

structure BuildDeps where
  /-- `serde_json::to_vec_pretty` on the metadata document. -/
  serializeMeta : Metadata → Bytes
  /-- `GzEncoder` with the default compression level. -/
  gzipCompress : Bytes → Bytes
  /-- `SigningKey::sign` (64-byte Ed25519 signature). -/
  edSign : Bytes → Bytes → Bytes
  /-- `SigningKey::verifying_key().to_bytes()` (32 bytes). -/
  edPub : Bytes → Bytes
  /-- `str::as_bytes` (UTF-8). -/
  utf8 : String → Bytes
  /-- `str::parse::<i64>`. -/
  parseI64 : String → Option Int
  /-- `chrono::DateTime::from_timestamp(_, 0).map(to_rfc3339)`. -/
  fmtTimestamp : Int → Option String
  /-- `load_keys_from_files` (PEM parsing, fully external). -/
  keyFileLoad : String → String → Except Err (Bytes × Bytes)
  /-- `Path::file_name().and_then(to_str)`. -/
  fileNameOf : String → Option String
  /-- `serde_json::from_value::<CacheValidationInfo>(_).ok()`. -/
  parseCV : String → Option String
  /-- `serde_json::from_value::<RuntimeInfo>(_).ok()`. -/
  parseRT : String → Option String
  /-- `serde_json::from_value::<WorkenvInfo>(_).ok()`. -/
  parseWE : String → Option String
  /-- compile-time `env!("FLAVOR_VERSION")`. -/
  flavorVersion : String
  /-- compile-time `env!("CARGO_PKG_VERSION")`. -/
  cargoPkgVersion : String
  /-- `std::env::consts::OS`. -/
  osStr : String
  /-- `std::env::consts::ARCH`. -/
  archStr : String

structure BuildEnv where
  /-- `SOURCE_DATE_EPOCH`. -/
  sourceDateEpoch : Option String
  /-- `chrono::Utc::now().to_rfc3339()` at build-info time. -/
  nowRfc3339 : String
  /-- `gethostname()`. -/
  hostname : String
  /-- 32 bytes from `OsRng` (ephemeral-key path). -/
  osRandom : Bytes
  /-- `FLAVOR_LAUNCHER_BIN`. -/
  launcherBinEnv : Option String
  /-- `FLAVOR_WORKENV_BASE`. -/
  workenvBase : Option String
  /-- `std::env::current_dir()`. -/
  cwd : String
  /-- file contents by path (`fs::read` and streaming reads). -/
  fsRead : String → Option Bytes

structure BuildOptions where
  launcherBin : Option String
  keySeed : Option String
  privateKeyPath : Option String
  publicKeyPath : Option String

structure ManifestSlot where
  slot : Option Nat
  id : String
  source : String
  target : String
  operations : String
  purpose : String
  lifecycle : String
  permissions : Option String
  resolution : Option String
deriving DecidableEq, Repr

structure BuildManifest where
  package : PackageInfo
  execution : ExecutionInfo
  slots : List ManifestSlot
  cache_validation : Option String
  runtime : Option String
  workenv : Option String
  setup_commands : List String
deriving DecidableEq, Repr

/-- `get_build_info`: with `SOURCE_DATE_EPOCH` set, the timestamp comes from
the epoch (falling back to the clock only when it cannot be parsed or
formatted) and the host string is `os/arch` with the hostname omitted;
without it, the clock and the hostname flow into the result. -/
def get_build_info (deps : BuildDeps) (env : BuildEnv) : String × String :=
  match env.sourceDateEpoch with
  | Option.some epoch =>
    let timestamp := match deps.parseI64 epoch with
      | Option.some secs =>
        match deps.fmtTimestamp secs with
        | Option.some ts => ts
        | Option.none => env.nowRfc3339
      | Option.none => env.nowRfc3339
    (timestamp, deps.osStr ++ "/" ++ deps.archStr)
  | Option.none =>
    (env.nowRfc3339, deps.osStr ++ "/" ++ deps.archStr ++ " " ++ env.hostname)

/-- The launcher tool name recorded in the metadata: file name of the
explicit `--launcher-bin`, else of `FLAVOR_LAUNCHER_BIN`, else "unknown". -/
def launcher_tool_name (deps : BuildDeps) (env : BuildEnv)
    (options : BuildOptions) : String :=
  let first := options.launcherBin.bind deps.fileNameOf
  let second := env.launcherBinEnv.bind deps.fileNameOf
  (first.or second).getD "unknown"

/-- `create_metadata` (builder/metadata.rs): slots are filled in later. -/
def create_metadata (deps : BuildDeps) (env : BuildEnv)
    (manifest : BuildManifest) (launcher_size : Nat) (launcher_data : Bytes)
    (options : BuildOptions) : Metadata :=
  let info := get_build_info deps env
  let launcherChecksum := "sha256:" ++ hexEncode (sha256 launcher_data)
  { format := "PSPF/2025"
    format_version := Option.some "1.0.0"
    package := manifest.package
    slots := []
    execution := { primary_slot := 0, command := manifest.execution.command,
                   env := manifest.execution.env }
    verification := Option.some
      { integrity_seal := { required := true, algorithm := "ed25519" }
        signed := true
        require_verification := true
        trust_signatures := Option.none }
    build := Option.some
      { tool := "flavor-rs"
        tool_version := deps.flavorVersion
        timestamp := info.1
        deterministic := options.keySeed.isSome
        platform := { os := deps.osStr, arch := deps.archStr, host := info.2 } }
    launcher := Option.some
      { tool := launcher_tool_name deps env options
        tool_version := deps.cargoPkgVersion
        size := Int.ofNat launcher_size
        checksum := launcherChecksum
        capabilities := ["mmap", "signed"] }
    compatibility := Option.some { min_format_version := "1.0.0", features := [] }
    cache_validation := manifest.cache_validation.bind deps.parseCV
    runtime := manifest.runtime.bind deps.parseRT
    workenv := manifest.workenv.bind deps.parseWE
    setup_commands := manifest.setup_commands }

/-- `compress_and_sign_metadata`: sign the *uncompressed* pretty-printed
JSON (into the first 64 bytes of the 512-byte signature field), gzip it,
and store the SHA-256 of the *compressed* bytes as `metadata_checksum`. -/
def compress_and_sign_metadata (deps : BuildDeps) (metadata : Metadata)
    (signingKey : Bytes) (index : Index) : Bytes × Index :=
  let metadataJson := deps.serializeMeta metadata
  let signature := deps.edSign signingKey metadataJson
  let index := { index with
    integrity_signature := setRange index.integrity_signature 0 (signature.take 64) }
  let compressed := deps.gzipCompress metadataJson
  let index := { index with metadata_checksum := sha256 compressed }
  (compressed, index)

/-- `generate_keys_from_seed`: the signing key is SHA-256 of the seed
string's UTF-8 bytes; the verifying key is derived from it. -/
def generate_keys_from_seed (deps : BuildDeps) (seed : String) : Bytes × Bytes :=
  let seedHash := sha256 (deps.utf8 seed)
  (seedHash, deps.edPub seedHash)

/-- `load_or_generate_keys`: seed first, then key files, then ephemeral
OS randomness. -/
def load_or_generate_keys (deps : BuildDeps) (env : BuildEnv)
    (options : BuildOptions) : Except Err (Bytes × Bytes) :=
  match options.keySeed with
  | Option.some seed => .ok (generate_keys_from_seed deps seed)
  | Option.none =>
    match options.privateKeyPath with
    | Option.some privPath =>
      match options.publicKeyPath with
      | Option.none => .error .keyLoad
      | Option.some pubPath => deps.keyFileLoad privPath pubPath
    | Option.none => .ok (env.osRandom, deps.edPub env.osRandom)

/-- `align_offset` (slots.rs): `(offset + alignment - 1) & !(alignment - 1)`
with the complement taken in u64. -/
def align_offset (offset alignment : Nat) : Nat :=
  (offset + alignment - 1) &&& (2 ^ 64 - alignment)

/-- `initialize_index`. -/
def CAPABILITY_MMAP : Nat := 1
def CAPABILITY_SIGNED : Nat := 128

def initialize_index (launcher_size : Nat) (public_key : Bytes) : Index :=
  { Index.new with
    launcher_size := launcher_size
    public_key := public_key
    capabilities := CAPABILITY_MMAP ||| CAPABILITY_SIGNED }

/-- The slot-operations parser of `create_slot_descriptor`
(slot_processor.rs): "", "none", "raw" mean no operations, "tgz" is
TAR+GZIP, otherwise a comma-separated list where unknown tokens are
dropped with a warning. -/
def parse_slot_operations (ops : String) : List Nat :=
  if ops = "" ∨ ops = "none" ∨ ops = "raw" then []
  else if ops = "tgz" then [OP_TAR, OP_GZIP]
  else
    ((((ops.splitOn ",").map rustTrim).filter (· ≠ "")).filterMap fun s =>
      if s = "tar" then Option.some OP_TAR
      else if s = "gzip" then Option.some OP_GZIP
      else Option.none)

/-- `u16::from_str_radix(s, 8)`: octal digits only, non-empty, within u16. -/
def from_str_radix8_u16 (s : String) : Option Nat :=
  if s.data = [] then Option.none
  else
    match s.data.foldl
      (fun acc c => acc.bind fun v =>
        if 48 ≤ c.toNat ∧ c.toNat ≤ 55 then Option.some (v * 8 + (c.toNat - 48))
        else Option.none)
      (Option.some 0) with
    | Option.some v => if v ≤ 65535 then Option.some v else Option.none
    | Option.none => Option.none

/-- Permission parsing of `create_slot_descriptor`: strip leading zeros,
parse as octal u16, default to 0o600 on any failure or absence. -/
def parse_slot_permissions (perm : Option String) : Nat :=
  match perm with
  | Option.some s =>
    (from_str_radix8_u16 (String.mk (s.data.dropWhile (· = '0')))).getD
      DEFAULT_FILE_PERMS
  | Option.none => DEFAULT_FILE_PERMS

/-- `SlotDescriptor::hash_name`: first 8 bytes of SHA-256 of the name, as a
little-endian u64. -/
def hash_name (deps : BuildDeps) (name : String) : Nat :=
  fromLE ((sha256 (deps.utf8 name)).take 8)

/-- `format!("{:04o}", n)` for the small permission defaults. -/
def octFormat4 (n : Nat) : String :=
  String.mk ((List.range 4).map fun k => Char.ofNat (48 + n / 8 ^ (3 - k) % 8))

/-- `create_slot_descriptor` (slot_processor.rs). -/
def create_slot_descriptor (deps : BuildDeps) (i : Nat) (slot : ManifestSlot)
    (file_size : Nat) (sha256_u64 : Nat) : SlotDescriptor :=
  let operations := parse_slot_operations slot.operations
  let purposeValue : Nat := match slot.purpose with
    | "payload" => 0
    | "runtime" => 1
    | "tool" => 2
    | _ => 0
  let lifecycleValue : Nat := match slot.lifecycle with
    | "init" => 0
    | "startup" => 1
    | "runtime" => 2
    | "shutdown" => 3
    | "cache" => 4
    | "temp" => 5
    | "lazy" => 6
    | "eager" => 7
    | "dev" => 8
    | "config" => 9
    | "platform" => 10
    | _ => 2
  let perms := parse_slot_permissions slot.permissions
  { id := i
    name_hash := hash_name deps slot.id
    offset := 0
    size := file_size
    original_size := file_size
    operations := Ops.pack_operations operations
    checksum := sha256_u64
    purpose := purposeValue
    lifecycle := lifecycleValue
    priority := 1
    platform := 0
    reserved1 := 0
    reserved2 := 0
    permissions := perms &&& 0xFF
    permissions_high := (perms >>> 8) &&& 0xFF }

/-- `resolve_slot_path`: substitute `{workenv}` with `FLAVOR_WORKENV_BASE`
or the current directory. -/
def resolve_slot_path (env : BuildEnv) (source : String) : String :=
  if containsSub source "{workenv}" then
    let baseDir := match env.workenvBase with
      | Option.some b => b
      | Option.none => env.cwd
    source.replace "{workenv}" baseDir
  else source

/-- `calculate_slot_checksums`: file size, `"sha256:<hex>"` string, and the
first 8 digest bytes as a little-endian u64. -/
def calculate_slot_checksums (env : BuildEnv) (slotPath : String) :
    Except Err (Nat × String × Nat) :=
  match env.fsRead slotPath with
  | Option.none => .error .missingSlotFile
  | Option.some data =>
    .ok (data.length, "sha256:" ++ hexEncode (sha256 data),
      fromLE ((sha256 data).take 8))

/-- `SlotProcessor::process_slots`, slot by slot: validate declared slot
numbers, short-circuit self-referential slots (`source == "$SELF"`) with an
all-zero descriptor and an empty path, otherwise resolve the source path,
checksum the file and build descriptor plus metadata entry. -/
def process_slots_from (deps : BuildDeps) (env : BuildEnv) :
    Nat → List ManifestSlot →
    Except Err (List SlotMetadata × List SlotDescriptor × List String)
  | _, [] => .ok ([], [], [])
  | i, slot :: rest =>
    if (match slot.slot with
        | Option.some declared => decide (declared ≠ i)
        | Option.none => false) then
      .error .slotNumberMismatch
    else if slot.source = "$SELF" then
      match process_slots_from deps env (i + 1) rest with
      | .error e => .error e
      | .ok (metas, descs, paths) =>
        let slotMeta : SlotMetadata :=
          { index := i, id := slot.id, source := slot.source
            target := slot.target, size := 0, checksum := ""
            operations := "", purpose := slot.purpose
            lifecycle := slot.lifecycle
            permissions := slot.permissions.or
              (Option.some (octFormat4 DEFAULT_FILE_PERMS))
            resolution := slot.resolution.or (Option.some "build")
            self_ref := Option.some true }
        let descriptor : SlotDescriptor :=
          { id := i, name_hash := 0, offset := 0, size := 0, original_size := 0
            operations := 0, checksum := 0, purpose := 0, lifecycle := 0
            priority := 0, platform := 0, reserved1 := 0, reserved2 := 0
            permissions := 0, permissions_high := 0 }
        .ok (slotMeta :: metas, descriptor :: descs, "" :: paths)
    else
      let slotPath := resolve_slot_path env slot.source
      match calculate_slot_checksums env slotPath with
      | .error e => .error e
      | .ok (fileSize, checksumStr, sha256u64) =>
        match process_slots_from deps env (i + 1) rest with
        | .error e => .error e
        | .ok (metas, descs, paths) =>
          let slotMeta : SlotMetadata :=
            { index := i, id := slot.id, source := slot.source
              target := slot.target, size := Int.ofNat fileSize
              checksum := checksumStr, operations := slot.operations
              purpose := slot.purpose, lifecycle := slot.lifecycle
              permissions := slot.permissions.or
                (Option.some (octFormat4 DEFAULT_FILE_PERMS))
              resolution := slot.resolution.or (Option.some "build")
              self_ref := Option.none }
          let descriptor := create_slot_descriptor deps i slot fileSize sha256u64
          .ok (slotMeta :: metas, descriptor :: descs, slotPath :: paths)

def process_slots (deps : BuildDeps) (env : BuildEnv)
    (slots : List ManifestSlot) :
    Except Err (List SlotMetadata × List SlotDescriptor × List String) :=
  process_slots_from deps env 0 slots

/-- Write `bytes` into the output buffer at `pos`, zero-filling any gap
(`File::seek` past end followed by `write_all`). -/
def writeAt (buf : Bytes) (pos : Nat) (bytes : Bytes) : Bytes :=
  let buf := if pos + bytes.length ≤ buf.length then buf
    else buf ++ List.replicate (pos + bytes.length - buf.length) 0
  setRange buf pos bytes

/-- `get_launcher`: explicit `--launcher-bin`, else `FLAVOR_LAUNCHER_BIN`,
else an error; then read the file. -/
def get_launcher (env : BuildEnv) (options : BuildOptions) : Except Err Bytes :=
  let launcherPath := options.launcherBin.or env.launcherBinEnv
  match launcherPath with
  | Option.none => .error .launcherMissing
  | Option.some path =>
    match env.fsRead path with
    | Option.none => .error .ioError
    | Option.some data => .ok data

/-- `write_launcher`: load, run the PE pass, and write at position 0. -/
def write_launcher (env : BuildEnv) (options : BuildOptions)
    (st : Bytes × Nat) : Except Err ((Bytes × Nat) × Nat × Bytes) := do
  let launcherData ← get_launcher env options
  let launcherData ← process_launcher_for_pspf launcherData
  .ok ((writeAt st.1 st.2 launcherData, st.2 + launcherData.length),
       launcherData.length, launcherData)

/-- `write_metadata_bytes`: write the compressed metadata at the current
position and record offset and size in the index. -/
def write_metadata_bytes (st : Bytes × Nat) (compressed : Bytes)
    (index : Index) : (Bytes × Nat) × Index :=
  ((writeAt st.1 st.2 compressed, st.2 + compressed.length),
   { index with metadata_offset := st.2, metadata_size := compressed.length })

/-- `reserve_descriptor_space`: align to 8, record table geometry, and seek
past the reserved table. -/
def reserve_descriptor_space (st : Bytes × Nat)
    (descriptors : List SlotDescriptor) (index : Index) :
    (Bytes × Nat) × Index × Nat :=
  let tableOffset := align_offset st.2 8
  let tableSize := descriptors.length * 64
  ((st.1, tableOffset + tableSize),
   { index with slot_table_offset := tableOffset, slot_table_size := tableSize
                slot_count := descriptors.length },
   tableOffset)

/-- `stream_slot_data`: self-referential slots (empty path) get offset 0;
other slots are 8-aligned with zero padding, their offset recorded, and
their source file copied into the output. -/
def stream_slots (env : BuildEnv) :
    (Bytes × Nat) → List (SlotDescriptor × String) →
    Except Err ((Bytes × Nat) × List SlotDescriptor)
  | st, [] => .ok (st, [])
  | (buf, pos), (d, path) :: rest =>
    if path = "" then
      match stream_slots env (buf, pos) rest with
      | .error e => .error e
      | .ok (st', ds) => .ok (st', { d with offset := 0 } :: ds)
    else
      let aligned := align_offset pos 8
      let buf := if aligned > pos
        then writeAt buf pos (List.replicate (aligned - pos) 0) else buf
      match env.fsRead path with
      | Option.none => .error .ioError
      | Option.some data =>
        match stream_slots env (writeAt buf aligned data, aligned + data.length)
            rest with
        | .error e => .error e
        | .ok (st', ds) => .ok (st', { d with offset := aligned } :: ds)

/-- `write_descriptor_table`: remember the end of data, back-fill the packed
descriptors at the reserved offset, return to the end. -/
def write_descriptor_table (st : Bytes × Nat)
    (descriptors : List SlotDescriptor) (tableOffset : Nat) :
    (Bytes × Nat) × Nat :=
  let bytes := (descriptors.map SlotDescriptor.pack).flatten
  ((writeAt st.1 tableOffset bytes, st.2), st.2)

/-- `write_index` (finalization.rs): Adler-32 over the packed block with the
checksum field zeroed, stored into `index_checksum`, then packed again. -/
def write_index (index : Index) : Bytes × Index :=
  let bytes := zeroChecksumField index.pack
  let index := { index with index_checksum := adler32 bytes }
  (index.pack, index)

/-- `finalize_package`: set `package_size = end + 8200` and append the
MagicTrailer. -/
def finalize_package (st : Bytes × Nat) (index : Index) (endPos : Nat) :
    (Bytes × Nat) × Index :=
  let index := { index with package_size := endPos + MAGIC_TRAILER_SIZE }
  let packed := write_index index
  ((writeAt st.1 st.2 (PACKAGE_EMOJI_BYTES ++ packed.1 ++ MAGIC_WAND_EMOJI_BYTES),
    st.2 + MAGIC_TRAILER_SIZE), packed.2)

/-- `build` (builder/mod.rs), phases 1-9.  PE-resource embedding (phase 9)
is disabled in the source (`should_use_resource_embedding` returns false),
so the output is the buffer as written. -/
def build (deps : BuildDeps) (env : BuildEnv) (manifest : BuildManifest)
    (options : BuildOptions) : Except Err Bytes := do
  let st : Bytes × Nat := ([], 0)
  let (st, launcherSize, launcherData) ← write_launcher env options st
  let keys ← load_or_generate_keys deps env options
  let index := initialize_index launcherSize keys.2
  let st := (st.1, launcherSize + HEADER_SIZE)
  let metadata := create_metadata deps env manifest launcherSize launcherData options
  let slotsOut ← process_slots deps env manifest.slots
  let metadata := { metadata with slots := slotsOut.1 }
  let csm := compress_and_sign_metadata deps metadata keys.1 index
  let stIdx := write_metadata_bytes st csm.1 csm.2
  let rds := reserve_descriptor_space stIdx.1 slotsOut.2.1 stIdx.2
  let streamed ← stream_slots env rds.1 (slotsOut.2.1.zip slotsOut.2.2)
  let wdt := write_descriptor_table streamed.1 streamed.2 rds.2.2
  let fin := finalize_package wdt.1 rds.2.1 wdt.2
  .ok fin.1.1

/-! ## Toolkit for reasoning about concrete packages

Concrete 8192-byte index blocks cannot be evaluated cell by cell, so the
witnesses work symbolically through these append/replicate lemmas. -/

theorem fromLE_replicate_zero : ∀ n, fromLE (List.replicate n 0) = 0
  | 0 => rfl
  | n + 1 => by simp [List.replicate, fromLE, fromLE_replicate_zero n]

theorem slice_append_of_le (A B : Bytes) (off k : Nat) (h : off + k ≤ A.length) :
    slice (A ++ B) off k = slice A off k := by
  unfold slice
  rw [List.drop_append_of_le_length (by omega)]
  rw [List.take_append_of_le_length (by simp; omega)]

theorem slice_append_ge (A B : Bytes) (off k : Nat) (h : A.length ≤ off) :
    slice (A ++ B) off k = slice B (off - A.length) k := by
  unfold slice
  congr 1
  have hoff : (A ++ B).drop off = (A ++ B).drop (A.length + (off - A.length)) := by
    congr 1
    omega
  rw [hoff, List.drop_append]

theorem slice_replicate (n a off k : Nat) :
    slice (List.replicate n a) off k = List.replicate (min k (n - off)) a := by
  unfold slice
  rw [List.drop_replicate, List.take_replicate]

theorem all_zero_replicate (n : Nat) :
    (List.replicate n (0 : Nat)).all (· = 0) = true := by
  simp [List.all_eq_true]

theorem read_index_of_trailer (file block : Bytes)
    (h : read_magic_trailer file = .ok block) (hlen : block.length = 8192) :
    read_index file = .ok (Index.parse block) := by
  simp [read_index, h, Index.unpack, hlen, Bind.bind, Except.bind]

/-- A successful trailer read forces the file to be at least 8200 bytes. -/
theorem read_magic_trailer_ok_length (file block : Bytes)
    (h64 : file.length < 2 ^ 64) (h : read_magic_trailer file = .ok block) :
    8200 ≤ file.length := by
  by_contra hlt
  rw [read_magic_trailer_small file h64 (by omega)] at h
  exact absurd h (by simp)

/-- A successful trailer read returns exactly the spec-located index block,
and both sentinels hold. -/
theorem read_magic_trailer_ok_elim (file block : Bytes)
    (h64 : file.length < 2 ^ 64) (h : read_magic_trailer file = .ok block) :
    8200 ≤ file.length ∧ block = indexBlockOf file ∧
      slice file (file.length - 8200) 4 = PACKAGE_EMOJI_BYTES ∧
      slice file (file.length - 4) 4 = MAGIC_WAND_EMOJI_BYTES := by
  have hge := read_magic_trailer_ok_length file block h64 h
  rw [read_magic_trailer_large file h64 hge] at h
  by_cases h1 : slice file (file.length - 8200) 4 = PACKAGE_EMOJI_BYTES
  · by_cases h2 : slice file (file.length - 4) 4 = MAGIC_WAND_EMOJI_BYTES
    · rw [if_pos h1, if_pos h2] at h
      refine ⟨hge, ?_, h1, h2⟩
      exact (Except.ok.injEq _ _ ▸ h).symm
    · rw [if_pos h1, if_neg h2] at h
      exact absurd h (by simp)
  · rw [if_neg h1] at h
    exact absurd h (by simp)

theorem indexBlockOf_length (file : Bytes) (hge : 8200 ≤ file.length) :
    (indexBlockOf file).length = 8192 := by
  unfold indexBlockOf
  apply length_slice
  omega


theorem except_bind_ok {E A B : Type} (a : A) (f : A → Except E B) :
    ((Except.ok a : Except E A) >>= f) = f a := rfl

theorem except_bind_error {E A B : Type} (e : E) (f : A → Except E B) :
    ((Except.error e : Except E A) >>= f) = Except.error e := rfl

theorem readAt_some_elim (f : Bytes) (o l : Nat) (m : Bytes)
    (h : readAt f o l = Option.some m) : m = slice f o l ∧ o + l ≤ f.length := by
  unfold readAt at h
  by_cases hle : o + l ≤ f.length
  · rw [if_pos hle] at h
    exact ⟨(Option.some.injEq _ _ ▸ h).symm, hle⟩
  · rw [if_neg hle] at h
    exact absurd h (by simp)

theorem read_metadata_eq (amb : ValidationLevel) (gs : Bytes → Option Bytes)
    (pj : Bytes → Option Metadata) (file : Bytes) (idx : Index)
    (hri : read_index file = .ok idx) :
    read_metadata amb gs pj file =
      match readAt file idx.metadata_offset idx.metadata_size with
      | Option.none => .error .ioError
      | Option.some m =>
        if sha256 m ≠ idx.metadata_checksum then .error .checksumMismatch
        else match gs m with
          | Option.none => .error .gunzipError
          | Option.some j =>
            match pj j with
            | Option.none => .error .jsonParseError
            | Option.some md => .ok md := by
  rw [read_metadata, hri, except_bind_ok]

def sealIndexChecksumOK (file : Bytes) : Bool :=
  adler32 (zeroChecksumField (indexBlockOf file)) == readLE (indexBlockOf file) 4 4

def sealMetadataChecksumOK (file : Bytes) : Bool :=
  sha256 (slice file (readLE (indexBlockOf file) 24 8) (readLE (indexBlockOf file) 32 8))
    == slice (indexBlockOf file) 96 32

def sealSizeOK (file : Bytes) : Bool :=
  readLE (indexBlockOf file) 8 8 == file.length

def sealSignatureOK {K : Type} (gunzipRaw : Bytes → Option Bytes)
    (edParseKey : Bytes → Option K) (edVerify : K → Bytes → Bytes → Bool)
    (file : Bytes) : Bool :=
  match gunzipRaw (slice file (readLE (indexBlockOf file) 24 8)
      (readLE (indexBlockOf file) 32 8)) with
  | Option.none => false
  | Option.some j =>
    !(slice (indexBlockOf file) 128 512).all (· = 0) &&
    (!(slice (indexBlockOf file) 64 32).all (· = 0) &&
    (match edParseKey (slice (indexBlockOf file) 64 32) with
     | Option.none => false
     | Option.some k =>
       edVerify k (j.take 1048576) ((slice (indexBlockOf file) 128 512).take 64)))

def sealTrailingMagicOK (file : Bytes) : Bool :=
  slice file (file.length - 4) 4 == MAGIC_WAND_EMOJI_BYTES

theorem verify_index_checksum_parse (blk : Bytes) (hlen : blk.length = 8192)
    (hbb : IsBytes blk) :
    verify_index_checksum (Index.parse blk)
      = (adler32 (zeroChecksumField blk) == readLE blk 4 4) := by
  unfold verify_index_checksum
  rw [zeroChecksumField_pack_parse blk hlen hbb]
  rfl

set_option maxRecDepth 4000 in
theorem verify_ok_signature_valid {K : Type} (amb : ValidationLevel)
    (gs gr : Bytes → Option Bytes) (pj : Bytes → Option Metadata)
    (ep : Bytes → Option K) (ev : K → Bytes → Bytes → Bool)
    (file : Bytes) (r : VerifyResult)
    (hb : IsBytes file) (h64 : file.length < 2 ^ 64)
    (hok : verify amb gs gr pj ep ev file = .ok r) :
    r.signature_valid = (sealIndexChecksumOK file && sealMetadataChecksumOK file
      && sealSizeOK file && sealSignatureOK gr ep ev file
      && sealTrailingMagicOK file) := by
  cases htr : read_magic_trailer file with
  | error e =>
    rw [verify, read_index, htr] at hok
    simp only [except_bind_error] at hok
    exact Except.noConfusion hok
  | ok block =>
    obtain ⟨hge, hblk, hm1, hm2⟩ := read_magic_trailer_ok_elim file block h64 htr
    have hblen : block.length = 8192 := by
      rw [hblk]
      exact indexBlockOf_length file hge
    have hbb : IsBytes block := by
      rw [hblk]
      exact fun x hx => hb x (List.mem_of_mem_drop (List.mem_of_mem_take hx))
    have hri : read_index file = .ok (Index.parse block) :=
      read_index_of_trailer file _ htr hblen
    rw [verify, hri] at hok
    rw [except_bind_ok, read_metadata_eq amb gs pj file _ hri] at hok
    cases hra : readAt file (Index.parse block).metadata_offset
        (Index.parse block).metadata_size with
    | none =>
      rw [hra] at hok
      simp only [except_bind_error] at hok
      exact Except.noConfusion hok
    | some m =>
      rw [hra] at hok
      simp only [except_bind_ok, except_bind_error] at hok
      obtain ⟨hm, hbounds⟩ := readAt_some_elim _ _ _ _ hra
      have hm' : m = slice file (readLE block 24 8) (readLE block 32 8) := hm
      have hc1 : verify_index_checksum (Index.parse block) = sealIndexChecksumOK file := by
        rw [verify_index_checksum_parse block hblen hbb, sealIndexChecksumOK, ← hblk]
      have hc3 : ((Index.parse block).package_size == file.length) = sealSizeOK file := by
        rw [sealSizeOK, ← hblk]
        rfl
      have hc5 : (slice file (file.length - 4) 4 == MAGIC_WAND_EMOJI_BYTES)
          = sealTrailingMagicOK file := rfl
      by_cases hcks : sha256 m = (Index.parse block).metadata_checksum
      case neg =>
        rw [if_pos hcks] at hok
        simp only [except_bind_error] at hok
        exact Except.noConfusion hok
      case pos =>
      have hc2 : (sha256 m == (Index.parse block).metadata_checksum)
          = sealMetadataChecksumOK file := by
        rw [sealMetadataChecksumOK, ← hblk, ← hm']
        rfl
      rw [if_neg (not_not_intro hcks)] at hok
      cases hgs : gs m with
      | none =>
        rw [hgs] at hok
        simp only [except_bind_error] at hok
        exact Except.noConfusion hok
      | some j =>
        rw [hgs] at hok
        simp only [except_bind_ok, except_bind_error] at hok
        cases hpj : pj j with
        | none =>
          rw [hpj] at hok
          simp only [except_bind_error] at hok
          exact Except.noConfusion hok
        | some md =>
          rw [hpj] at hok
          simp only [except_bind_ok] at hok
          have hvmc : verify_metadata_checksum file (Index.parse block)
              = Except.ok (sha256 m == (Index.parse block).metadata_checksum) := by
            unfold verify_metadata_checksum
            rw [hra]
          have hvtm : verify_trailing_magic file
              = Except.ok (slice file (file.length - 4) 4 == MAGIC_WAND_EMOJI_BYTES) := by
            unfold verify_trailing_magic
            rw [if_neg (show ¬ file.length < 4 by omega)]
          rw [hvmc] at hok
          simp only [except_bind_ok] at hok
          cases hgr : gr m with
          | none =>
            have hvis : verify_integrity_seal gr ep ev file (Index.parse block)
                = Except.error Err.gunzipError := by
              unfold verify_integrity_seal
              simp only [hra, hgr]
            rw [hvis] at hok
            simp only [except_bind_error] at hok
            exact Except.noConfusion hok
          | some j0 =>
            by_cases hsz : (Index.parse block).integrity_signature.all (· = 0)
            case pos =>
              have hvis : verify_integrity_seal gr ep ev file (Index.parse block)
                  = Except.ok false := by
                unfold verify_integrity_seal
                simp only [hra, hgr]
                rw [if_pos hsz]
              have hsz' : (slice block 128 512).all (· = 0) = true := hsz
              have hsv : sealSignatureOK gr ep ev file = false := by
                rw [sealSignatureOK, ← hblk, ← hm', hgr, hsz']
                simp
              rw [hvis, hvtm] at hok
              simp only [except_bind_ok, Except.ok.injEq] at hok
              subst hok
              dsimp only
              rw [hc1, hc2, hc3, hc5, hsv]
            case neg =>
              by_cases hkz : (Index.parse block).public_key.all (· = 0)
              case pos =>
                have hvis : verify_integrity_seal gr ep ev file (Index.parse block)
                    = Except.ok false := by
                  unfold verify_integrity_seal
                  simp only [hra, hgr]
                  rw [if_neg hsz, if_pos hkz]
                have hsz' : (slice block 128 512).all (· = 0) = false := by
                  simpa using hsz
                have hkz' : (slice block 64 32).all (· = 0) = true := hkz
                have hsv : sealSignatureOK gr ep ev file = false := by
                  rw [sealSignatureOK, ← hblk, ← hm', hgr, hsz', hkz']
                  simp
                rw [hvis, hvtm] at hok
                simp only [except_bind_ok, Except.ok.injEq] at hok
                subst hok
                dsimp only
                rw [hc1, hc2, hc3, hc5, hsv]
              case neg =>
                cases hep : ep (Index.parse block).public_key with
                | none =>
                  have hvis : verify_integrity_seal gr ep ev file (Index.parse block)
                      = Except.error Err.invalidPublicKey := by
                    unfold verify_integrity_seal
                    simp only [hra, hgr]
                    rw [if_neg hsz, if_neg hkz, hep]
                  rw [hvis] at hok
                  simp only [except_bind_error] at hok
                  exact Except.noConfusion hok
                | some k =>
                  have hvis : verify_integrity_seal gr ep ev file (Index.parse block)
                      = Except.ok (ev k (j0.take 1048576)
                        ((Index.parse block).integrity_signature.take 64)) := by
                    unfold verify_integrity_seal
                    simp only [hra, hgr]
                    rw [if_neg hsz, if_neg hkz, hep]
                  have hsz' : (slice block 128 512).all (· = 0) = false := by
                    simpa using hsz
                  have hkz' : (slice block 64 32).all (· = 0) = false := by
                    simpa using hkz
                  have hep' : ep (slice block 64 32) = Option.some k := hep
                  have hsv : sealSignatureOK gr ep ev file
                      = ev k (j0.take 1048576)
                        ((Index.parse block).integrity_signature.take 64) := by
                    rw [sealSignatureOK, ← hblk, ← hm', hgr, hsz', hkz', hep']
                    simp
                    rfl
                  rw [hvis, hvtm] at hok
                  simp only [except_bind_ok, Except.ok.injEq] at hok
                  subst hok
                  dsimp only
                  rw [hc1, hc2, hc3, hc5, hsv]


/-! Concrete verification witness: an 8200-byte package whose index block
zeroes every field except `metadata_checksum`, which holds the SHA-256 of
the empty metadata region. -/

def wBlock : Bytes := List.replicate 96 0 ++ (sha256 [] ++ List.replicate 8064 0)

def wFile : Bytes := PACKAGE_EMOJI_BYTES ++ (wBlock ++ MAGIC_WAND_EMOJI_BYTES)

def wMd : Metadata :=
  { format := "PSPF"
    format_version := Option.none
    package := { name := "p", version := "1" }
    slots := []
    execution := { primary_slot := 0, command := "", env := [] }
    verification := Option.none
    build := Option.none
    launcher := Option.none
    compatibility := Option.none
    cache_validation := Option.none
    runtime := Option.none
    workenv := Option.none
    setup_commands := [] }

def wGs : Bytes → Option Bytes := fun _ => Option.some []
def wGr : Bytes → Option Bytes := fun _ => Option.some []
def wPj : Bytes → Option Metadata := fun _ => Option.some wMd
def wEp : Bytes → Option Unit := fun _ => Option.none
def wEv : Unit → Bytes → Bytes → Bool := fun _ _ _ => false

def wR : VerifyResult :=
  { format := "PSPF/2025"
    version := "0x" ++ toHex8 FORMAT_VERSION
    signature_valid := verify_index_checksum (Index.parse wBlock) && true
      && ((Index.parse wBlock).package_size == wFile.length) && false && true
    slot_count := wMd.slots.length
    package_name := wMd.package.name
    package_version := wMd.package.version }

set_option maxRecDepth 8000 in
theorem sha256_nil_length : (sha256 []).length = 32 := by decide

theorem wBlock_length : wBlock.length = 8192 := by
  rw [wBlock, List.length_append, List.length_append, List.length_replicate,
    List.length_replicate, sha256_nil_length]

theorem wFile_length : wFile.length = 8200 := by
  rw [wFile, List.length_append, List.length_append, wBlock_length]
  rfl

theorem isBytes_append (A B : Bytes) (hA : IsBytes A) (hB : IsBytes B) :
    IsBytes (A ++ B) := by
  intro x hx
  rcases List.mem_append.mp hx with h | h
  · exact hA x h
  · exact hB x h

theorem isBytes_replicate_zero (n : Nat) : IsBytes (List.replicate n 0) := by
  intro x hx
  rw [List.eq_of_mem_replicate hx]
  omega

theorem isBytes_of_all (l : Bytes) (h : l.all (fun x => decide (x < 256)) = true) :
    IsBytes l := by
  intro x hx
  simpa using List.all_eq_true.mp h x hx

set_option maxRecDepth 8000 in
theorem sha256_nil_isBytes : IsBytes (sha256 []) :=
  isBytes_of_all _ (by decide)

theorem wFile_isBytes : IsBytes wFile := by
  rw [wFile, wBlock]
  apply isBytes_append _ _ (isBytes_of_all _ (by decide))
  apply isBytes_append
  · apply isBytes_append _ _ (isBytes_replicate_zero 96)
    exact isBytes_append _ _ sha256_nil_isBytes (isBytes_replicate_zero 8064)
  · exact isBytes_of_all _ (by decide)

theorem wslice96 (off k : Nat) (h : off + k ≤ 96) :
    slice wBlock off k = List.replicate k 0 := by
  rw [wBlock, slice_append_of_le _ _ off k (by simp; omega), slice_replicate]
  congr 1
  omega

theorem wP_sentinel : slice wFile (wFile.length - 8200) 4 = PACKAGE_EMOJI_BYTES := by
  rw [wFile_length, Nat.sub_self, wFile,
    slice_append_of_le _ _ 0 4 (by decide)]
  decide

theorem wW_sentinel : slice wFile (wFile.length - 4) 4 = MAGIC_WAND_EMOJI_BYTES := by
  rw [wFile_length, wFile, slice_append_ge _ _ 8196 4 (by decide)]
  have h4 : PACKAGE_EMOJI_BYTES.length = 4 := rfl
  rw [h4, show (8196 : Nat) - 4 = 8192 from rfl,
    slice_append_ge _ _ 8192 4 (le_of_eq wBlock_length),
    wBlock_length, Nat.sub_self]
  decide

theorem indexBlockOf_wFile : indexBlockOf wFile = wBlock := by
  unfold indexBlockOf
  rw [wFile_length, show (8200 : Nat) - 8196 = 4 from rfl, wFile,
    slice_append_ge _ _ 4 8192 (by decide)]
  have h4 : PACKAGE_EMOJI_BYTES.length = 4 := rfl
  rw [h4, Nat.sub_self,
    slice_append_of_le _ _ 0 8192 (by rw [wBlock_length])]
  unfold slice
  rw [List.drop_zero]
  exact List.take_of_length_le (le_of_eq wBlock_length)

theorem wFile_trailer : read_magic_trailer wFile = .ok wBlock := by
  rw [read_magic_trailer_large wFile (by rw [wFile_length]; norm_num)
    (by rw [wFile_length])]
  rw [if_pos wP_sentinel, if_pos wW_sentinel, indexBlockOf_wFile]

theorem wri : read_index wFile = .ok (Index.parse wBlock) :=
  read_index_of_trailer wFile wBlock wFile_trailer wBlock_length

theorem wmo : (Index.parse wBlock).metadata_offset = 0 := by
  show readLE wBlock 24 8 = 0
  unfold readLE
  rw [wslice96 24 8 (by omega)]
  exact fromLE_replicate_zero 8

theorem wms : (Index.parse wBlock).metadata_size = 0 := by
  show readLE wBlock 32 8 = 0
  unfold readLE
  rw [wslice96 32 8 (by omega)]
  exact fromLE_replicate_zero 8

theorem wmc : (Index.parse wBlock).metadata_checksum = sha256 [] := by
  show slice wBlock 96 32 = sha256 []
  rw [wBlock, slice_append_ge _ _ 96 32 (by simp), List.length_replicate,
    Nat.sub_self, slice_append_of_le _ _ 0 32 (by rw [sha256_nil_length])]
  unfold slice
  rw [List.drop_zero]
  exact List.take_of_length_le (le_of_eq sha256_nil_length)

theorem wsig : (Index.parse wBlock).integrity_signature = List.replicate 512 0 := by
  show slice wBlock 128 512 = List.replicate 512 0
  rw [wBlock, slice_append_ge _ _ 128 512 (by simp), List.length_replicate,
    show (128 : Nat) - 96 = 32 from rfl,
    slice_append_ge _ _ 32 512 (le_of_eq sha256_nil_length),
    sha256_nil_length, Nat.sub_self, slice_replicate]
  norm_num

theorem wra : readAt wFile (Index.parse wBlock).metadata_offset
    (Index.parse wBlock).metadata_size = Option.some [] := by
  rw [wmo, wms]
  unfold readAt
  rw [if_pos (by omega)]
  unfold slice
  rw [List.drop_zero, List.take_zero]

theorem wrm : read_metadata ValidationLevel.standard wGs wPj wFile = .ok wMd := by
  rw [read_metadata_eq ValidationLevel.standard wGs wPj wFile (Index.parse wBlock) wri,
    wra]
  simp only [wGs, wPj]
  rw [if_neg (not_not_intro wmc.symm)]

theorem wvmc : verify_metadata_checksum wFile (Index.parse wBlock) = .ok true := by
  have h1 : verify_metadata_checksum wFile (Index.parse wBlock)
      = .ok (sha256 [] == (Index.parse wBlock).metadata_checksum) := by
    unfold verify_metadata_checksum
    rw [wra]
  rw [h1, wmc, beq_self_eq_true]

theorem wvis : verify_integrity_seal wGr wEp wEv wFile (Index.parse wBlock)
    = .ok false := by
  unfold verify_integrity_seal
  simp only [wra, wGr]
  rw [if_pos (show (Index.parse wBlock).integrity_signature.all (· = 0) = true by
    rw [wsig]; exact all_zero_replicate 512)]

theorem wvtm : verify_trailing_magic wFile = .ok true := by
  unfold verify_trailing_magic
  rw [if_neg (show ¬ wFile.length < 4 by rw [wFile_length]; omega)]
  rw [wW_sentinel, beq_self_eq_true]

theorem wver : @verify Unit ValidationLevel.standard wGs wGr wPj wEp wEv wFile
    = Except.ok wR := by
  rw [verify, wri, except_bind_ok, wrm, except_bind_ok, wvmc, except_bind_ok,
    wvis, except_bind_ok, wvtm, except_bind_ok]
  rfl

/-- **C1**: for every package file that `verify` accepts, the reported
`signature_valid` is the conjunction of exactly the five independent checks
(index Adler-32 with bytes `[4, 8)` zeroed, SHA-256 of the compressed
metadata, file-length equality with `package_size`, Ed25519 signature
(first 64 bytes of the 512-byte field, key from the index) over the
decompressed metadata JSON, and the trailing wand sentinel); and the
builder's `compress_and_sign_metadata` signs the *uncompressed* JSON while
storing the SHA-256 of the *compressed* bytes. -/
theorem C1_signature_valid_is_five_check_conjunction :
    (∀ (K : Type) (amb : ValidationLevel) (gs gr : Bytes → Option Bytes)
        (pj : Bytes → Option Metadata) (ep : Bytes → Option K)
        (ev : K → Bytes → Bytes → Bool) (file : Bytes) (r : VerifyResult),
        IsBytes file → file.length < 2 ^ 64 →
        @verify K amb gs gr pj ep ev file = Except.ok r →
        r.signature_valid = (sealIndexChecksumOK file && sealMetadataChecksumOK file
          && sealSizeOK file && sealSignatureOK gr ep ev file
          && sealTrailingMagicOK file)) ∧
    (∀ (deps : BuildDeps) (md : Metadata) (key : Bytes) (idx : Index),
        (compress_and_sign_metadata deps md key idx).2.integrity_signature
            = setRange idx.integrity_signature 0
                ((deps.edSign key (deps.serializeMeta md)).take 64) ∧
        (compress_and_sign_metadata deps md key idx).2.metadata_checksum
            = sha256 (deps.gzipCompress (deps.serializeMeta md)) ∧
        (compress_and_sign_metadata deps md key idx).1
            = deps.gzipCompress (deps.serializeMeta md)) := by
  constructor
  · intro K amb gs gr pj ep ev file r hb h64 hok
    exact verify_ok_signature_valid amb gs gr pj ep ev file r hb h64 hok
  · intro deps md key idx
    exact ⟨rfl, rfl, rfl⟩

/-- Witness for C1: the concrete 8200-byte package `wFile` is accepted by
`verify`, and the claim theorem applies to it. -/
theorem C1_witness :
    IsBytes wFile ∧ wFile.length < 2 ^ 64 ∧
    @verify Unit ValidationLevel.standard wGs wGr wPj wEp wEv wFile = Except.ok wR ∧
    wR.signature_valid = (sealIndexChecksumOK wFile && sealMetadataChecksumOK wFile
      && sealSizeOK wFile && sealSignatureOK wGr wEp wEv wFile
      && sealTrailingMagicOK wFile) :=
  ⟨wFile_isBytes, by rw [wFile_length]; norm_num, wver,
    C1_signature_valid_is_five_check_conjunction.1 Unit ValidationLevel.standard
      wGs wGr wPj wEp wEv wFile wR wFile_isBytes
      (by rw [wFile_length]; norm_num) wver⟩


/-! An all-zero index block: its `metadata_checksum` field cannot match the
SHA-256 of the (empty) metadata region. -/

def zBlock : Bytes := List.replicate 8192 0

def zFile : Bytes := PACKAGE_EMOJI_BYTES ++ (zBlock ++ MAGIC_WAND_EMOJI_BYTES)

theorem zBlock_length : zBlock.length = 8192 := by
  rw [zBlock, List.length_replicate]

theorem zFile_length : zFile.length = 8200 := by
  rw [zFile, List.length_append, List.length_append, zBlock_length]
  rfl

theorem zP_sentinel : slice zFile (zFile.length - 8200) 4 = PACKAGE_EMOJI_BYTES := by
  rw [zFile_length, Nat.sub_self, zFile,
    slice_append_of_le _ _ 0 4 (by decide)]
  decide

theorem zW_sentinel : slice zFile (zFile.length - 4) 4 = MAGIC_WAND_EMOJI_BYTES := by
  rw [zFile_length, zFile, slice_append_ge _ _ 8196 4 (by decide)]
  have h4 : PACKAGE_EMOJI_BYTES.length = 4 := rfl
  rw [h4, show (8196 : Nat) - 4 = 8192 from rfl,
    slice_append_ge _ _ 8192 4 (le_of_eq zBlock_length),
    zBlock_length, Nat.sub_self]
  decide

theorem indexBlockOf_zFile : indexBlockOf zFile = zBlock := by
  unfold indexBlockOf
  rw [zFile_length, show (8200 : Nat) - 8196 = 4 from rfl, zFile,
    slice_append_ge _ _ 4 8192 (by decide)]
  have h4 : PACKAGE_EMOJI_BYTES.length = 4 := rfl
  rw [h4, Nat.sub_self,
    slice_append_of_le _ _ 0 8192 (by rw [zBlock_length])]
  unfold slice
  rw [List.drop_zero]
  exact List.take_of_length_le (le_of_eq zBlock_length)

theorem zFile_trailer : read_magic_trailer zFile = .ok zBlock := by
  rw [read_magic_trailer_large zFile (by rw [zFile_length]; norm_num)
    (by rw [zFile_length])]
  rw [if_pos zP_sentinel, if_pos zW_sentinel, indexBlockOf_zFile]

theorem zri : read_index zFile = .ok (Index.parse zBlock) :=
  read_index_of_trailer zFile zBlock zFile_trailer zBlock_length

theorem zslice (off k : Nat) : slice zBlock off k = List.replicate (min k (8192 - off)) 0 := by
  rw [zBlock, slice_replicate]

theorem zmo : (Index.parse zBlock).metadata_offset = 0 := by
  show readLE zBlock 24 8 = 0
  unfold readLE
  rw [zslice 24 8, show min 8 (8192 - 24) = 8 by norm_num]
  exact fromLE_replicate_zero 8

theorem zms : (Index.parse zBlock).metadata_size = 0 := by
  show readLE zBlock 32 8 = 0
  unfold readLE
  rw [zslice 32 8, show min 8 (8192 - 32) = 8 by norm_num]
  exact fromLE_replicate_zero 8

theorem zmc : (Index.parse zBlock).metadata_checksum = List.replicate 32 0 := by
  show slice zBlock 96 32 = List.replicate 32 0
  rw [zslice 96 32, show min 32 (8192 - 96) = 32 by norm_num]

theorem zra : readAt zFile (Index.parse zBlock).metadata_offset
    (Index.parse zBlock).metadata_size = Option.some [] := by
  rw [zmo, zms]
  unfold readAt
  rw [if_pos (by omega)]
  unfold slice
  rw [List.drop_zero, List.take_zero]

set_option maxRecDepth 8000 in
theorem sha256_nil_ne_zeros : sha256 [] ≠ List.replicate 32 0 := by decide

/-- **C2** (corrected): trailer discovery never checks the file size.  For a
file of at least 8200 bytes it demands the start-of-trailer emoji at
`[size - 8200, size - 8196)` and the wand emoji in the last 4 bytes and
returns the intervening 8192-byte index block; for a smaller file the
wrapped offset `size - 8200 (mod 2^64)` sends the read past EOF, so the
result is an I/O error rather than a dedicated size/format error. -/
theorem C2_trailer_discovery : ∀ (file : Bytes), file.length < 2 ^ 64 →
    (8200 ≤ file.length →
      read_magic_trailer file =
        if slice file (file.length - 8200) 4 = PACKAGE_EMOJI_BYTES then
          (if slice file (file.length - 4) 4 = MAGIC_WAND_EMOJI_BYTES then
            .ok (indexBlockOf file)
          else .error .invalidMagicEnd)
        else .error .invalidMagicStart) ∧
    (file.length < 8200 → read_magic_trailer file = .error .ioError) ∧
    indexBlockOf file = slice file (file.length - 8196) 8192 := by
  intro file h64
  exact ⟨read_magic_trailer_large file h64, read_magic_trailer_small file h64, rfl⟩

/-- Counterexample for C2: a 100-byte file fails with `ioError` (the failed
read at the wrapped offset), not with a format/size error as claimed. -/
theorem C2_counterexample :
    read_magic_trailer (List.replicate 100 0) = .error Err.ioError ∧
    Err.ioError ≠ Err.invalidMagicStart ∧ Err.ioError ≠ Err.invalidMagicEnd := by
  refine ⟨read_magic_trailer_small _ ?_ ?_, by decide, by decide⟩
  · rw [List.length_replicate]
    norm_num
  · rw [List.length_replicate]
    norm_num

/-- Witness for C2: the concrete 8200-byte package `wFile` carries both
sentinels, and trailer discovery returns its index block. -/
theorem C2_witness :
    wFile.length < 2 ^ 64 ∧ 8200 ≤ wFile.length ∧
    read_magic_trailer wFile = .ok (indexBlockOf wFile) := by
  have h64 : wFile.length < 2 ^ 64 := by rw [wFile_length]; norm_num
  have hge : 8200 ≤ wFile.length := by rw [wFile_length]
  refine ⟨h64, hge, ?_⟩
  have h := (C2_trailer_discovery wFile h64).1 hge
  rw [if_pos wP_sentinel, if_pos wW_sentinel] at h
  exact h

/-- **C3**: `read_metadata` ignores the validation tier entirely; a SHA-256
mismatch of the stored metadata bytes is an unconditional
`checksumMismatch` error, and on a match the result is gzip-decompression
followed by JSON parsing. -/
theorem C3_metadata_checksum_unconditional :
    (∀ (amb amb' : ValidationLevel) (gs : Bytes → Option Bytes)
        (pj : Bytes → Option Metadata) (file : Bytes),
        read_metadata amb gs pj file = read_metadata amb' gs pj file) ∧
    (∀ (amb : ValidationLevel) (gs : Bytes → Option Bytes)
        (pj : Bytes → Option Metadata) (file : Bytes) (idx : Index) (m : Bytes),
        read_index file = .ok idx →
        readAt file idx.metadata_offset idx.metadata_size = Option.some m →
        (sha256 m ≠ idx.metadata_checksum →
          read_metadata amb gs pj file = .error .checksumMismatch) ∧
        (sha256 m = idx.metadata_checksum →
          read_metadata amb gs pj file =
            match gs m with
            | Option.none => .error .gunzipError
            | Option.some j =>
              match pj j with
              | Option.none => .error .jsonParseError
              | Option.some md => .ok md)) := by
  constructor
  · intro amb amb' gs pj file
    rfl
  · intro amb gs pj file idx m hri hra
    have h1 : read_metadata amb gs pj file =
        (if sha256 m ≠ idx.metadata_checksum then Except.error Err.checksumMismatch
         else match gs m with
           | Option.none => Except.error Err.gunzipError
           | Option.some j =>
             match pj j with
             | Option.none => Except.error Err.jsonParseError
             | Option.some md => Except.ok md) := by
      rw [read_metadata_eq amb gs pj file idx hri, hra]
    constructor
    · intro hne
      rw [h1, if_pos hne]
    · intro heq
      rw [h1, if_neg (not_not_intro heq)]

/-- Witness for C3: tier-independence at the concrete package `wFile`; the
all-zero package `zFile` fails with `checksumMismatch` under the most
permissive tier; `wFile` (whose stored checksum is right) parses. -/
theorem C3_witness :
    (read_metadata ValidationLevel.strict wGs wPj wFile
      = read_metadata ValidationLevel.off wGs wPj wFile) ∧
    sha256 [] ≠ (Index.parse zBlock).metadata_checksum ∧
    read_metadata ValidationLevel.off wGs wPj zFile = .error .checksumMismatch ∧
    sha256 [] = (Index.parse wBlock).metadata_checksum ∧
    read_metadata ValidationLevel.standard wGs wPj wFile = Except.ok wMd := by
  have hne : sha256 [] ≠ (Index.parse zBlock).metadata_checksum := by
    rw [zmc]
    exact sha256_nil_ne_zeros
  refine ⟨C3_metadata_checksum_unconditional.1 ValidationLevel.strict
      ValidationLevel.off wGs wPj wFile, hne, ?_, wmc.symm, ?_⟩
  · exact (C3_metadata_checksum_unconditional.2 ValidationLevel.off wGs wPj zFile
      (Index.parse zBlock) [] zri zra).1 hne
  · have h := (C3_metadata_checksum_unconditional.2 ValidationLevel.standard wGs wPj
      wFile (Index.parse wBlock) [] wri wra).2 wmc.symm
    rw [h]
    rfl

theorem takeWhile_ne_zero_replicate (n : Nat) :
    (List.replicate n (0 : Nat)).takeWhile (· ≠ 0) = [] := by
  cases n <;> simp [List.replicate_succ, List.takeWhile_cons]

/-- **C4** (corrected): `chain.rs pack_operations` *errors* on more than 8
operations instead of preserving the first 8; for at most 8 non-zero byte
codes the chain pack/unpack pair round-trips. -/
theorem C4_chain_pack_roundtrip :
    (∀ V : List Nat, V.length ≤ 8 → (∀ x ∈ V, 0 < x ∧ x < 256) →
      ∃ p, Chain.pack_operations V = .ok p ∧ Chain.unpack_operations p = V) ∧
    (∀ V : List Nat, 8 < V.length →
      Chain.pack_operations V = .error (.invalidData
        ("Maximum 8 operations allowed, got " ++ toString V.length))) := by
  constructor
  · intro V hlen hx
    have hb : ∀ x ∈ V, x < 256 := fun x hx' => (hx x hx').2
    have hnz : ∀ x ∈ V, x ≠ 0 := fun x hx' => by
      have := (hx x hx').1
      omega
    refine ⟨fromLE V, ?_, ?_⟩
    · unfold Chain.pack_operations
      rw [if_neg (by omega), pack_foldl_eq_fromLE V hb]
    · unfold Chain.unpack_operations
      rw [chain_unpackFrom_eq]
      have hmap : (List.range 8).map (fun k => byteAt (fromLE V) (0 + k))
          = (List.range 8).map (fun k => V.getD k 0) := by
        apply List.map_congr_left
        intro a _
        rw [Nat.zero_add, byteAt_fromLE V hb]
      rw [hmap, getD_map_range V 8 hlen,
        takeWhile_append_all _ _ (fun a ha => by simpa using hnz a ha),
        takeWhile_ne_zero_replicate, List.append_nil]
  · intro V hlen
    unfold Chain.pack_operations
    rw [if_pos (by omega)]

/-- Counterexample for C4: nine operations make `chain.rs` error out, while
the `format_2025/operations.rs` packer silently keeps only the first 8. -/
theorem C4_counterexample :
    Chain.pack_operations (List.replicate 9 1)
      = .error (.invalidData "Maximum 8 operations allowed, got 9") ∧
    Ops.unpack_operations (Ops.pack_operations (List.replicate 9 1))
      = List.replicate 8 1 := by
  constructor
  · decide
  · decide

/-- Witness for C4: the round-trip at `[1, 2]` and the overflow error at a
nine-element chain. -/
theorem C4_witness :
    ([1, 2].length ≤ 8 ∧ (∀ x ∈ [1, 2], 0 < x ∧ x < 256) ∧
      ∃ p, Chain.pack_operations [1, 2] = .ok p ∧ Chain.unpack_operations p = [1, 2]) ∧
    (8 < (List.replicate 9 2).length ∧
      Chain.pack_operations (List.replicate 9 2) = .error (.invalidData
        ("Maximum 8 operations allowed, got " ++ toString (List.replicate 9 2).length))) := by
  refine ⟨⟨by decide, by decide, C4_chain_pack_roundtrip.1 [1, 2] (by decide) (by decide)⟩,
    by decide, C4_chain_pack_roundtrip.2 (List.replicate 9 2) (by decide)⟩


/-- A PE image with `e_lfanew = 0xE8`: "MZ", zeros up to 0x3C, the
little-endian header offset, zeros up to 0xE8, and the PE signature. -/
def rustPeSample : Bytes :=
  [77, 90] ++ List.replicate 58 0 ++ toLE 4 0xE8 ++ List.replicate 168 0
    ++ [80, 69, 0, 0]

/-- A PE image with `e_lfanew = 0xF0` (DOS stub already at the target
size). -/
def f0PeSample : Bytes :=
  [77, 90] ++ List.replicate 58 0 ++ toLE 4 0xF0 ++ List.replicate 176 0
    ++ [80, 69, 0, 0]

/-- **C5** (code bug): `process_launcher_for_pspf` is the identity on every
input: the "rust" classification demands a PE header offset of at least
0xE8 while `needs_dos_stub_expansion` demands exactly 0x80, so the claimed
DOS-stub growth to 0xF0 is unreachable — shown concretely on a Rust-shaped
PE with `e_lfanew = 0xE8`, which is returned byte-for-byte unchanged.
Only the no-op sentence survives: expansion on a PE whose header offset is
already at least 0xF0 returns the input unchanged. -/
theorem C5_process_launcher_is_identity :
    (∀ data : Bytes, process_launcher_for_pspf data = .ok data) ∧
    (is_pe_executable rustPeSample = true ∧
      get_pe_header_offset rustPeSample = Option.some 0xE8 ∧
      get_launcher_type rustPeSample = .rust ∧
      needs_dos_stub_expansion rustPeSample = false ∧
      process_launcher_for_pspf rustPeSample = .ok rustPeSample) ∧
    (∀ (data : Bytes) (pe : Nat), is_pe_executable data = true →
      get_pe_header_offset data = Option.some pe → 0xF0 ≤ pe →
      expand_dos_stub data = .ok data) := by
  refine ⟨process_launcher_for_pspf_id, ⟨by decide, by decide, by decide, by decide,
    process_launcher_for_pspf_id rustPeSample⟩, ?_⟩
  intro data pe hpe hoff hge
  unfold expand_dos_stub
  simp only [hpe, hoff]
  rw [if_pos (show pe ≥ TARGET_DOS_STUB_SIZE from hge),
    if_neg (not_not_intro trivial)]

/-- Witness for C5: the 0xF0-offset sample satisfies the no-op clause's
hypotheses, and expansion leaves it unchanged. -/
theorem C5_witness :
    is_pe_executable f0PeSample = true ∧
    get_pe_header_offset f0PeSample = Option.some 0xF0 ∧
    (0xF0 : Nat) ≤ 0xF0 ∧
    expand_dos_stub f0PeSample = .ok f0PeSample :=
  ⟨by decide, by decide, by decide,
    C5_process_launcher_is_identity.2.2 f0PeSample 0xF0 (by decide) (by decide)
      (by decide)⟩


theorem apply_ops_foreign (gz : Bytes → Option Bytes)
    (htot : ∀ b, (gz b).isSome = true) :
    ∀ (L : List Nat) (data : Bytes),
      (∃ op ∈ L, op ≠ OP_TAR ∧ op ≠ OP_GZIP) →
      ∃ u, u ≠ OP_TAR ∧ u ≠ OP_GZIP ∧
        apply_ops gz L data = .error (.unknownOperation u) := by
  intro L
  induction L with
  | nil =>
    intro data hex
    obtain ⟨op, hop, _⟩ := hex
    exact absurd hop (List.not_mem_nil op)
  | cons a rest ih =>
    intro data hex
    by_cases ha1 : a = OP_GZIP
    · obtain ⟨d, hd⟩ := Option.isSome_iff_exists.mp (htot data)
      obtain ⟨op, hop, hne⟩ := hex
      have hrest : ∃ op ∈ rest, op ≠ OP_TAR ∧ op ≠ OP_GZIP := by
        rcases List.mem_cons.mp hop with heq | hmem
        · exact absurd (ha1 ▸ heq) hne.2
        · exact ⟨op, hmem, hne⟩
      obtain ⟨u, h1, h2, h3⟩ := ih d hrest
      refine ⟨u, h1, h2, ?_⟩
      unfold apply_ops
      rw [if_pos ha1, hd]
      exact h3
    · by_cases ha2 : a = OP_TAR
      · obtain ⟨op, hop, hne⟩ := hex
        have hrest : ∃ op ∈ rest, op ≠ OP_TAR ∧ op ≠ OP_GZIP := by
          rcases List.mem_cons.mp hop with heq | hmem
          · exact absurd (ha2 ▸ heq) hne.1
          · exact ⟨op, hmem, hne⟩
        obtain ⟨u, h1, h2, h3⟩ := ih data hrest
        refine ⟨u, h1, h2, ?_⟩
        unfold apply_ops
        rw [if_neg ha1, if_pos ha2]
        exact h3
      · refine ⟨a, ha2, ha1, ?_⟩
        unfold apply_ops
        rw [if_neg ha1, if_neg ha2]

theorem process_operations_foreign (gz : Bytes → Option Bytes)
    (htot : ∀ b, (gz b).isSome = true) (L : List Nat) (data : Bytes)
    (hex : ∃ op ∈ L, op ≠ OP_TAR ∧ op ≠ OP_GZIP) :
    ∃ u, u ≠ OP_TAR ∧ u ≠ OP_GZIP ∧
      process_operations gz L data = .error (.unknownOperation u) := by
  unfold process_operations
  apply apply_ops_foreign gz htot
  obtain ⟨op, hop, hne⟩ := hex
  exact ⟨op, List.mem_reverse.mpr hop, hne⟩

theorem slot_file_mode_eq (d : SlotDescriptor) (hlt : d.permissions < 256) :
    slot_file_mode d =
      if d.permissions + 256 * d.permissions_high ≠ 0
      then d.permissions + 256 * d.permissions_high
      else DEFAULT_FILE_PERMS := by
  unfold slot_file_mode
  have hor : d.permissions ||| (d.permissions_high <<< 8)
      = d.permissions + 256 * d.permissions_high := by
    rw [Nat.shiftLeft_eq]
    have h1 : (2 : Nat) ^ 8 * d.permissions_high + d.permissions
        = 2 ^ 8 * d.permissions_high ||| d.permissions :=
      Nat.mul_add_lt_is_or hlt d.permissions_high
    calc d.permissions ||| d.permissions_high * 2 ^ 8
        = d.permissions_high * 2 ^ 8 ||| d.permissions := Nat.or_comm _ _
      _ = 2 ^ 8 * d.permissions_high ||| d.permissions := by rw [Nat.mul_comm]
      _ = 2 ^ 8 * d.permissions_high + d.permissions := h1.symm
      _ = d.permissions + 256 * d.permissions_high := by ring
  rw [hor]

/-- **C6**: during slot extraction, a declared `OP_TAR` whose decoded bytes
lack the "ustar" signature at offset 257 is an `operationMismatch` error;
an op code other than `OP_TAR`/`OP_GZIP` in the unpacked chain is an
`unknownOperation` error (given a total gunzip); and a slot without
`OP_TAR` becomes a single file at `dest/target` with `{workenv}` stripped
and the descriptor's 16-bit permissions as mode, defaulting to 0o600 when
zero. -/
theorem C6_extract_slot_behaviour :
    (∀ (gz : Bytes → Option Bytes) (descs : List SlotDescriptor)
        (slots : List SlotMetadata) (dd : String) (i : Nat) (sd dec : Bytes)
        (h : i < descs.length),
        process_operations gz
            (Ops.unpack_operations (descs.get ⟨i, h⟩).operations) sd = .ok dec →
        (Ops.unpack_operations (descs.get ⟨i, h⟩).operations).contains OP_TAR = true →
        is_tarball dec = false →
        extract_slot gz descs slots dd i sd = .error .operationMismatch) ∧
    (∀ (gz : Bytes → Option Bytes) (descs : List SlotDescriptor)
        (slots : List SlotMetadata) (dd : String) (i : Nat) (sd : Bytes)
        (h : i < descs.length),
        (∀ b, (gz b).isSome = true) →
        (∃ op ∈ Ops.unpack_operations (descs.get ⟨i, h⟩).operations,
          op ≠ OP_TAR ∧ op ≠ OP_GZIP) →
        ∃ u, u ≠ OP_TAR ∧ u ≠ OP_GZIP ∧
          extract_slot gz descs slots dd i sd = .error (.unknownOperation u)) ∧
    (∀ (gz : Bytes → Option Bytes) (descs : List SlotDescriptor)
        (slots : List SlotMetadata) (dd : String) (i : Nat) (sd dec : Bytes)
        (s : SlotMetadata) (h : i < descs.length),
        process_operations gz
            (Ops.unpack_operations (descs.get ⟨i, h⟩).operations) sd = .ok dec →
        (Ops.unpack_operations (descs.get ⟨i, h⟩).operations).contains OP_TAR = false →
        slots.get? i = Option.some s →
        (descs.get ⟨i, h⟩).permissions < 256 →
        extract_slot gz descs slots dd i sd
          = .ok (.singleFile (path_join dd (strip_workenv s.target))
              (if (descs.get ⟨i, h⟩).permissions
                  + 256 * (descs.get ⟨i, h⟩).permissions_high ≠ 0
               then (descs.get ⟨i, h⟩).permissions
                  + 256 * (descs.get ⟨i, h⟩).permissions_high
               else DEFAULT_FILE_PERMS) dec)) := by
  refine ⟨?_, ?_, ?_⟩
  · intro gz descs slots dd i sd dec h hpo htar hnt
    unfold extract_slot
    rw [dif_pos h]
    simp only [hpo, htar, hnt]
    simp
  · intro gz descs slots dd i sd h htot hex
    obtain ⟨u, h1, h2, h3⟩ := process_operations_foreign gz htot
      (Ops.unpack_operations (descs.get ⟨i, h⟩).operations) sd hex
    refine ⟨u, h1, h2, ?_⟩
    unfold extract_slot
    rw [dif_pos h]
    simp only [h3]
  · intro gz descs slots dd i sd dec s h hpo hntar hs hlt
    unfold extract_slot
    rw [dif_pos h]
    simp only [hpo, hntar, hs]
    rw [slot_file_mode_eq _ hlt]
    simp

def w6gz : Bytes → Option Bytes := fun _ => Option.some []

def w6descTar : SlotDescriptor := ⟨0, 0, 0, 0, 0, OP_TAR, 0, 0, 0, 0, 0, 0, 0, 0, 0⟩
def w6descForeign : SlotDescriptor := ⟨0, 0, 0, 0, 0, 2, 0, 0, 0, 0, 0, 0, 0, 0, 0⟩
def w6descPlain : SlotDescriptor := ⟨0, 0, 0, 0, 0, 0, 0, 0, 0, 0, 0, 0, 0, 5, 1⟩

def w6slot : SlotMetadata :=
  ⟨0, "s", "", "{workenv}/cfg", 0, "", "", "", "", Option.none, Option.none,
    Option.none⟩

/-- Witness for C6: the three clauses at concrete slots — a declared tar
that is not a tarball, a foreign op code 2, and a plain file slot with
permissions `0x0105`. -/
theorem C6_witness :
    extract_slot w6gz [w6descTar] [w6slot] "d" 0 [0] = .error .operationMismatch ∧
    (∃ u, u ≠ OP_TAR ∧ u ≠ OP_GZIP ∧
      extract_slot w6gz [w6descForeign] [w6slot] "d" 0 [0]
        = .error (.unknownOperation u)) ∧
    extract_slot w6gz [w6descPlain] [w6slot] "d" 0 [7]
      = .ok (.singleFile (path_join "d" (strip_workenv w6slot.target))
          (if (5 : Nat) + 256 * 1 ≠ 0 then 5 + 256 * 1 else DEFAULT_FILE_PERMS)
          [7]) := by
  refine ⟨?_, ?_, ?_⟩
  · exact C6_extract_slot_behaviour.1 w6gz [w6descTar] [w6slot] "d" 0 [0] [0]
      (by decide) (by decide) (by decide) (by decide)
  · exact C6_extract_slot_behaviour.2.1 w6gz [w6descForeign] [w6slot] "d" 0 [0]
      (by decide) (fun b => rfl) (by decide)
  · exact C6_extract_slot_behaviour.2.2 w6gz [w6descPlain] [w6slot] "d" 0 [7] [7]
      w6slot (by decide) (by decide) (by decide) (by decide) (by decide)


theorem hexChar_range : ∀ m, m < 16 →
    (48 ≤ (hexChar m).toNat ∧ (hexChar m).toNat ≤ 57) ∨
    (97 ≤ (hexChar m).toNat ∧ (hexChar m).toNat ≤ 102) := by decide

/-- **C7**: the workenv cache is valid exactly when the `complete` marker
exists and the trimmed stored checksum equals the current index checksum
rendered as 8 lowercase hex digits; under the strict tier a mismatch is a
`packageChecksumMismatch` error; and `toHex8` always yields exactly 8
characters, each a lowercase hex digit. -/
theorem C7_workenv_cache_validity :
    (∀ (lvl : ValidationLevel) (complete : Bool) (stored : Option String) (cks : Nat),
      check_workenv_validity_full lvl complete stored cks = .ok true ↔
        complete = true ∧ ∃ data, stored = Option.some data ∧
          rustTrim data = toHex8 cks) ∧
    (∀ (complete : Bool) (stored : Option String) (cks : Nat) (data : String),
      complete = true → stored = Option.some data → rustTrim data ≠ toHex8 cks →
      check_workenv_validity_full ValidationLevel.strict complete stored cks
        = .error (.packageChecksumMismatch (rustTrim data) (toHex8 cks))) ∧
    (∀ n : Nat, (toHex8 n).length = 8 ∧ ∀ c ∈ (toHex8 n).data,
      (48 ≤ c.toNat ∧ c.toNat ≤ 57) ∨ (97 ≤ c.toNat ∧ c.toNat ≤ 102)) := by
  refine ⟨?_, ?_, ?_⟩
  · intro lvl complete stored cks
    cases complete with
    | false =>
      unfold check_workenv_validity_full
      rw [if_pos (by simp)]
      simp
    | true =>
      unfold check_workenv_validity_full
      rw [if_neg (by simp)]
      cases stored with
      | none => simp [validate_package_checksum]
      | some data =>
        by_cases hd : rustTrim data = toHex8 cks
        · simp [validate_package_checksum, hd]
        · cases lvl <;> simp [validate_package_checksum, hd]
  · intro complete stored cks data hc hs hne
    subst hc
    subst hs
    unfold check_workenv_validity_full
    rw [if_neg (by simp)]
    simp [validate_package_checksum, hne]
  · intro n
    constructor
    · simp [toHex8, String.length]
    · intro c hc
      have hmem : c ∈ (List.range 8).map fun i => hexChar (n / 16 ^ (7 - i) % 16) := hc
      obtain ⟨i, _, hi⟩ := List.mem_map.mp hmem
      rw [← hi]
      exact hexChar_range _ (Nat.mod_lt _ (by norm_num))

/-- Witness for C7: a matching cache is valid, a strict-tier mismatch is the
checksum error, and the hex rendering of `0xDEADBEEF` is checked. -/
theorem C7_witness :
    check_workenv_validity_full ValidationLevel.standard true
      (Option.some (toHex8 0xDEADBEEF)) 0xDEADBEEF = .ok true ∧
    check_workenv_validity_full ValidationLevel.strict true
      (Option.some "00000000") 1
      = .error (.packageChecksumMismatch (rustTrim "00000000") (toHex8 1)) ∧
    (toHex8 0xDEADBEEF).length = 8 := by
  refine ⟨?_, ?_, ?_⟩
  · exact (C7_workenv_cache_validity.1 ValidationLevel.standard true
      (Option.some (toHex8 0xDEADBEEF)) 0xDEADBEEF).mpr
      ⟨rfl, toHex8 0xDEADBEEF, rfl, by decide⟩
  · exact C7_workenv_cache_validity.2.1 true (Option.some "00000000") 1 "00000000"
      rfl rfl (by decide)
  · exact (C7_workenv_cache_validity.2.2 0xDEADBEEF).1


theorem get_launcher_env (env₁ env₂ : BuildEnv) (o : BuildOptions)
    (hlb : env₁.launcherBinEnv = env₂.launcherBinEnv)
    (hfs : env₁.fsRead = env₂.fsRead) :
    get_launcher env₁ o = get_launcher env₂ o := by
  unfold get_launcher
  rw [hlb, hfs]

theorem write_launcher_env (env₁ env₂ : BuildEnv) (o : BuildOptions)
    (hlb : env₁.launcherBinEnv = env₂.launcherBinEnv)
    (hfs : env₁.fsRead = env₂.fsRead) :
    write_launcher env₁ o = write_launcher env₂ o := by
  funext st
  unfold write_launcher
  rw [get_launcher_env env₁ env₂ o hlb hfs]

theorem resolve_slot_path_env (env₁ env₂ : BuildEnv)
    (hwb : env₁.workenvBase = env₂.workenvBase) (hcwd : env₁.cwd = env₂.cwd) :
    resolve_slot_path env₁ = resolve_slot_path env₂ := by
  funext s
  unfold resolve_slot_path
  rw [hwb, hcwd]

theorem calculate_slot_checksums_env (env₁ env₂ : BuildEnv)
    (hfs : env₁.fsRead = env₂.fsRead) :
    calculate_slot_checksums env₁ = calculate_slot_checksums env₂ := by
  funext p
  unfold calculate_slot_checksums
  rw [hfs]

theorem process_slots_from_env (deps : BuildDeps) (env₁ env₂ : BuildEnv)
    (hwb : env₁.workenvBase = env₂.workenvBase) (hcwd : env₁.cwd = env₂.cwd)
    (hfs : env₁.fsRead = env₂.fsRead) :
    ∀ (i : Nat) (slots : List ManifestSlot),
      process_slots_from deps env₁ i slots = process_slots_from deps env₂ i slots := by
  intro i slots
  induction slots generalizing i with
  | nil => rfl
  | cons s rest ih =>
    unfold process_slots_from
    rw [resolve_slot_path_env env₁ env₂ hwb hcwd,
      calculate_slot_checksums_env env₁ env₂ hfs, ih (i + 1)]

theorem stream_slots_env (env₁ env₂ : BuildEnv) (hfs : env₁.fsRead = env₂.fsRead) :
    ∀ (st : Bytes × Nat) (L : List (SlotDescriptor × String)),
      stream_slots env₁ st L = stream_slots env₂ st L := by
  intro st L
  induction L generalizing st with
  | nil => rfl
  | cons dp rest ih =>
    cases st with
    | mk buf pos =>
      cases dp with
      | mk d path =>
        unfold stream_slots
        simp only [hfs, ih]

theorem get_build_info_epoch (deps : BuildDeps) (env : BuildEnv) (T : String)
    (secs : Int) (ts : String) (hsde : env.sourceDateEpoch = Option.some T)
    (hp : deps.parseI64 T = Option.some secs)
    (hf : deps.fmtTimestamp secs = Option.some ts) :
    get_build_info deps env = (ts, deps.osStr ++ "/" ++ deps.archStr) := by
  unfold get_build_info
  rw [hsde]
  simp only [hp, hf]

theorem launcher_tool_name_env (deps : BuildDeps) (env₁ env₂ : BuildEnv)
    (hlb : env₁.launcherBinEnv = env₂.launcherBinEnv) :
    launcher_tool_name deps env₁ = launcher_tool_name deps env₂ := by
  funext o
  unfold launcher_tool_name
  rw [hlb]

theorem create_metadata_env (deps : BuildDeps) (env₁ env₂ : BuildEnv)
    (hgbi : get_build_info deps env₁ = get_build_info deps env₂)
    (hlb : env₁.launcherBinEnv = env₂.launcherBinEnv) :
    create_metadata deps env₁ = create_metadata deps env₂ := by
  funext manifest ls ld o
  unfold create_metadata
  rw [hgbi, launcher_tool_name_env deps env₁ env₂ hlb]

/-- **C8**: with a key seed the Ed25519 signing key is exactly the SHA-256
of the seed's bytes; with `SOURCE_DATE_EPOCH` set the build-host string is
`os/arch` without the hostname; and two builds under environments that
agree on everything except the clock, the hostname and OS randomness
produce identical bytes (given a seed and a parseable epoch). -/
theorem C8_deterministic_build :
    (∀ (deps : BuildDeps) (env : BuildEnv) (o : BuildOptions) (seed : String),
      o.keySeed = Option.some seed →
      load_or_generate_keys deps env o
        = .ok (sha256 (deps.utf8 seed), deps.edPub (sha256 (deps.utf8 seed)))) ∧
    (∀ (deps : BuildDeps) (env : BuildEnv) (T : String),
      env.sourceDateEpoch = Option.some T →
      (get_build_info deps env).2 = deps.osStr ++ "/" ++ deps.archStr) ∧
    (∀ (deps : BuildDeps) (env₁ env₂ : BuildEnv) (manifest : BuildManifest)
        (o : BuildOptions) (seed T : String) (secs : Int) (ts : String),
      o.keySeed = Option.some seed →
      env₁.sourceDateEpoch = Option.some T →
      env₂.sourceDateEpoch = Option.some T →
      deps.parseI64 T = Option.some secs →
      deps.fmtTimestamp secs = Option.some ts →
      env₁.launcherBinEnv = env₂.launcherBinEnv →
      env₁.workenvBase = env₂.workenvBase →
      env₁.cwd = env₂.cwd →
      env₁.fsRead = env₂.fsRead →
      build deps env₁ manifest o = build deps env₂ manifest o) := by
  refine ⟨?_, ?_, ?_⟩
  · intro deps env o seed hseed
    unfold load_or_generate_keys
    rw [hseed]
    rfl
  · intro deps env T hsde
    unfold get_build_info
    rw [hsde]
  · intro deps env₁ env₂ manifest o seed T secs ts hseed h1 h2 hp hf hlb hwb hcwd hfs
    have hwl := write_launcher_env env₁ env₂ o hlb hfs
    have hk : load_or_generate_keys deps env₁ o = load_or_generate_keys deps env₂ o := by
      unfold load_or_generate_keys
      rw [hseed]
    have hgbi : get_build_info deps env₁ = get_build_info deps env₂ := by
      rw [get_build_info_epoch deps env₁ T secs ts h1 hp hf,
        get_build_info_epoch deps env₂ T secs ts h2 hp hf]
    have hcm := create_metadata_env deps env₁ env₂ hgbi hlb
    have hps : process_slots deps env₁ = process_slots deps env₂ := by
      funext slots
      unfold process_slots
      exact process_slots_from_env deps env₁ env₂ hwb hcwd hfs 0 slots
    have hss : stream_slots env₁ = stream_slots env₂ := by
      funext st L
      exact stream_slots_env env₁ env₂ hfs st L
    unfold build
    rw [hwl, hk, hcm, hps, hss]

def w8deps : BuildDeps :=
  { serializeMeta := fun _ => []
    gzipCompress := fun b => b
    edSign := fun _ _ => []
    edPub := fun k => k
    utf8 := fun _ => []
    parseI64 := fun _ => Option.some 0
    fmtTimestamp := fun _ => Option.some "t"
    keyFileLoad := fun _ _ => .error .keyLoad
    fileNameOf := fun _ => Option.none
    parseCV := fun _ => Option.none
    parseRT := fun _ => Option.none
    parseWE := fun _ => Option.none
    flavorVersion := "v"
    cargoPkgVersion := "c"
    osStr := "linux"
    archStr := "x86" }

def w8env1 : BuildEnv :=
  { sourceDateEpoch := Option.some "0"
    nowRfc3339 := "now1"
    hostname := "h1"
    osRandom := [1]
    launcherBinEnv := Option.some "L"
    workenvBase := Option.none
    cwd := "/"
    fsRead := fun _ => Option.some [7] }

def w8env2 : BuildEnv :=
  { sourceDateEpoch := Option.some "0"
    nowRfc3339 := "now2"
    hostname := "h2"
    osRandom := [2]
    launcherBinEnv := Option.some "L"
    workenvBase := Option.none
    cwd := "/"
    fsRead := fun _ => Option.some [7] }

def w8manifest : BuildManifest :=
  { package := { name := "p", version := "1" }
    execution := { primary_slot := 0, command := "", env := [] }
    slots := []
    cache_validation := Option.none
    runtime := Option.none
    workenv := Option.none
    setup_commands := [] }

def w8options : BuildOptions :=
  { launcherBin := Option.none
    keySeed := Option.some "s"
    privateKeyPath := Option.none
    publicKeyPath := Option.none }

/-- Witness for C8: two environments differing only in clock, hostname and
OS randomness build the same bytes for a seeded, epoch-pinned build. -/
theorem C8_witness :
    load_or_generate_keys w8deps w8env1 w8options
      = .ok (sha256 (w8deps.utf8 "s"), w8deps.edPub (sha256 (w8deps.utf8 "s"))) ∧
    (get_build_info w8deps w8env1).2 = w8deps.osStr ++ "/" ++ w8deps.archStr ∧
    w8env1.nowRfc3339 ≠ w8env2.nowRfc3339 ∧
    w8env1.hostname ≠ w8env2.hostname ∧
    w8env1.osRandom ≠ w8env2.osRandom ∧
    build w8deps w8env1 w8manifest w8options
      = build w8deps w8env2 w8manifest w8options := by
  refine ⟨C8_deterministic_build.1 w8deps w8env1 w8options "s" rfl,
    C8_deterministic_build.2.1 w8deps w8env1 "0" rfl,
    by decide, by decide, by decide,
    C8_deterministic_build.2.2 w8deps w8env1 w8env2 w8manifest w8options "s" "0" 0 "t"
      rfl rfl rfl rfl rfl rfl rfl rfl rfl⟩


/-- **C9**: `Index::unpack` fails exactly on inputs whose length differs
from 8192 (with `invalidIndexSize`), succeeds on every 8192-byte block,
and performs no `format_version` validation: a block carrying any 32-bit
version value parses successfully with that value. -/
theorem C9_index_unpack_no_version_check :
    (∀ data : Bytes,
      (data.length = 8192 → Index.unpack data = .ok (Index.parse data)) ∧
      (data.length ≠ 8192 →
        Index.unpack data = .error (.invalidIndexSize data.length))) ∧
    (∀ v : Nat, v < 2 ^ 32 →
      (Index.unpack (toLE 4 v ++ List.replicate 8188 0)).map
          (fun i => i.format_version) = .ok v) := by
  constructor
  · intro data
    constructor
    · intro h
      unfold Index.unpack
      rw [if_pos h]
    · intro h
      unfold Index.unpack
      rw [if_neg h]
  · intro v hv
    have hlen : (toLE 4 v ++ List.replicate 8188 0).length = 8192 := by
      rw [List.length_append, length_toLE, List.length_replicate]
    unfold Index.unpack
    rw [if_pos hlen]
    have hfv : (Index.parse (toLE 4 v ++ List.replicate 8188 0)).format_version = v := by
      show readLE (toLE 4 v ++ List.replicate 8188 0) 0 4 = v
      unfold readLE
      rw [slice_append_of_le _ _ 0 4 (by rw [length_toLE])]
      have hsl : slice (toLE 4 v) 0 4 = toLE 4 v := by
        unfold slice
        rw [List.drop_zero]
        exact List.take_of_length_le (le_of_eq (length_toLE 4 v))
      rw [hsl]
      exact fromLE_toLE 4 v (by norm_num at hv ⊢; omega)
    rw [show (Except.map (fun i => i.format_version)
        (Except.ok (Index.parse (toLE 4 v ++ List.replicate 8188 0)))
          : Except Err Nat)
        = .ok (Index.parse (toLE 4 v ++ List.replicate 8188 0)).format_version
      from rfl, hfv]

/-- Witness for C9: an 8192-byte block with version word `0xDEADBEEF`
parses, an 8191-byte block is rejected with its length in the error. -/
theorem C9_witness :
    (List.replicate 8191 0 : Bytes).length ≠ 8192 ∧
    Index.unpack (List.replicate 8191 0)
      = .error (.invalidIndexSize (List.replicate 8191 0 : Bytes).length) ∧
    (0xDEADBEEF : Nat) < 2 ^ 32 ∧
    (Index.unpack (toLE 4 0xDEADBEEF ++ List.replicate 8188 0)).map
        (fun i => i.format_version) = .ok 0xDEADBEEF := by
  have hne : (List.replicate 8191 0 : Bytes).length ≠ 8192 := by
    rw [List.length_replicate]
    omega
  exact ⟨hne, ((C9_index_unpack_no_version_check.1 (List.replicate 8191 0)).2 hne),
    by norm_num, C9_index_unpack_no_version_check.2 0xDEADBEEF (by norm_num)⟩


theorem filter_takeWhile_dropWhile {p : Nat → Bool} :
    ∀ l : List Nat, l.filter p = l.takeWhile p ++ (l.dropWhile p).filter p := by
  intro l
  induction l with
  | nil => rfl
  | cons a rest ih =>
    by_cases hp : p a
    · simp [List.filter_cons, List.takeWhile_cons, List.dropWhile_cons, hp, ih]
    · simp [List.filter_cons, List.takeWhile_cons, List.dropWhile_cons, hp]

theorem takeWhile_length_le_self {p : Nat → Bool} :
    ∀ l : List Nat, (l.takeWhile p).length ≤ l.length := by
  intro l
  induction l with
  | nil => simp
  | cons a rest ih =>
    rw [List.takeWhile_cons]
    by_cases hp : p a
    · simp only [hp, if_true, List.length_cons]
      omega
    · simp [hp]

theorem chain_unpack_eq (x : Nat) :
    Chain.unpack_operations x = ((List.range 8).map (byteAt x)).takeWhile (· ≠ 0) := by
  unfold Chain.unpack_operations
  rw [chain_unpackFrom_eq]
  simp only [Nat.zero_add]

theorem ops_unpack_eq (x : Nat) :
    Ops.unpack_operations x = ((List.range 8).map (byteAt x)).filter (· ≠ 0) := by
  unfold Ops.unpack_operations
  rw [ops_unpackFrom_eq]
  simp only [Nat.zero_add]

/-- **C10** (corrected): `chain.rs unpack_operations` indeed yields at most
8 non-zero codes and stops at the first zero byte; but the decoder the
extraction engine actually uses (`format_2025/operations.rs`) *skips* zero
bytes instead of stopping, so the codes packed after an embedded zero byte
are exactly the extra suffix it decodes — they are applied during
extraction, not dropped. -/
theorem C10_unpack_zero_handling :
    (∀ x : Nat, (Chain.unpack_operations x).length ≤ 8 ∧
      0 ∉ Chain.unpack_operations x ∧
      Chain.unpack_operations x
        = ((List.range 8).map (byteAt x)).takeWhile (· ≠ 0)) ∧
    (∀ x : Nat, Ops.unpack_operations x
        = ((List.range 8).map (byteAt x)).filter (· ≠ 0)) ∧
    (∀ x : Nat, Ops.unpack_operations x
        = Chain.unpack_operations x
          ++ (((List.range 8).map (byteAt x)).dropWhile (· ≠ 0)).filter (· ≠ 0)) := by
  refine ⟨?_, ops_unpack_eq, ?_⟩
  · intro x
    refine ⟨?_, ?_, chain_unpack_eq x⟩
    · rw [chain_unpack_eq]
      have h := takeWhile_length_le_self (p := (· ≠ 0))
        ((List.range 8).map (byteAt x))
      simpa using h
    · intro hmem
      rw [chain_unpack_eq x] at hmem
      have := List.mem_takeWhile_imp hmem
      simp at this
  · intro x
    rw [ops_unpack_eq, chain_unpack_eq, filter_takeWhile_dropWhile]

def c10desc : SlotDescriptor := ⟨0, 0, 0, 0, 0, 0x100000, 0, 0, 0, 0, 0, 0, 0, 0, 0⟩

/-- Counterexample for C10: the packed value `0x100000` has a zero byte
first and `OP_GZIP` in byte 2.  The chain decoder drops the gzip code, but
the extraction decoder keeps it, and `extract_slot` visibly *applies* it:
the emitted file holds the gunzip output, not the slot bytes. -/
theorem C10_counterexample :
    Chain.unpack_operations 0x100000 = [] ∧
    Ops.unpack_operations 0x100000 = [OP_GZIP] ∧
    extract_slot (fun _ => Option.some [9]) [c10desc] [w6slot] "d" 0 [1, 2, 3]
      = .ok (.singleFile (path_join "d" (strip_workenv w6slot.target))
          DEFAULT_FILE_PERMS [9]) := by
  refine ⟨by decide, by decide, ?_⟩
  have hpo : process_operations (fun _ => Option.some [9])
      (Ops.unpack_operations c10desc.operations) [1, 2, 3] = .ok [9] := by decide
  have hnc : (Ops.unpack_operations c10desc.operations).contains OP_TAR = false := by
    decide
  have hget : ([w6slot] : List SlotMetadata).get? 0 = Option.some w6slot := rfl
  unfold extract_slot
  rw [dif_pos (show 0 < ([c10desc] : List SlotDescriptor).length by decide)]
  have hgd : ([c10desc] : List SlotDescriptor).get ⟨0, by decide⟩ = c10desc := rfl
  simp only [hgd, hget]
  rw [show slot_file_mode c10desc = DEFAULT_FILE_PERMS from by decide]
  rw [hpo]
  simp [hnc]
  intro hmem
  exact absurd hmem (by decide)

end Flavor
